import Mathlib

/-! # Verification of `pkg/loader/compose.go` (kompose)

A shallow embedding of the compose loader: the port-specification parser
`loadPortsFromCompose`, the environment extraction `loadEnvVarsfromCompose`,
the translation `LoadCompose` of a parsed project into a Kompose object, and
the Go library functions they call (`strings.Contains`, `strings.Index`,
`strings.TrimSpace`, `strconv.Atoi`, the conversion `int32(.)`).

Conventions of the embedding.

* A Go `string` is a Lean `String`, read as its sequence of code points (the
  source text is valid UTF-8).  The only byte the loader searches for and
  slices at is the ASCII colon, so slicing at a code-point index and slicing
  at the corresponding byte index give the same two pieces.
* A Go `int` is an `Int` in the range of `strconv.IntSize = 64` bits; an
  `int32` is an `Int` in `[-2^31, 2^31)`, and the conversion `int32(x)` wraps.
* A Go function returning `(value, err)` with `err != nil` on failure is an
  `Option`; `loadPortsFromCompose` itself returns the pair `(ports, message)`
  exactly as the source does, the empty message meaning success.
* A Go slice is a `List`; `nil` and the empty slice are both `[]`.
* A Go map is the list of its key/value pairs, the keys pairwise distinct, in
  the order in which a `range` visits them; Go does not fix that order, so
  one map has as many such lists as it has orders of its keys.
* A run of `LoadCompose` ends in an `Outcome`: the object it returns, the
  `logrus.Fatalf` that ended the process, or the panic of a nil pointer
  dereference, each with the warnings it logged.  What it takes from its
  surroundings (`os.Getwd()`, the libcompose parser) is passed as arguments.
-/

namespace Kompose

/-! ## Go library functions used by the loader -/

/-- Go `unicode.IsSpace`: in Latin-1 the characters tab, newline, vertical tab,
form feed, carriage return, space, U+0085 and U+00A0; beyond Latin-1 the
code points with the Unicode `White_Space` property. -/
def isSpace (c : Char) : Bool :=
  let n := c.toNat
  (9 ≤ n && n ≤ 13) || n == 0x20 || n == 0x85 || n == 0xA0 || n == 0x1680 ||
  (0x2000 ≤ n && n ≤ 0x200A) || n == 0x2028 || n == 0x2029 || n == 0x202F ||
  n == 0x205F || n == 0x3000

/-- Go `strings.TrimSpace`: all leading and trailing white space removed. -/
def TrimSpace (s : String) : String :=
  ⟨((s.data.dropWhile isSpace).reverse.dropWhile isSpace).reverse⟩

/-- Go `strings.Contains(s, ":")`, for the one-character needle the loader
uses. -/
def Contains (s : String) (character : Char) : Bool :=
  s.data.contains character

/-- Go `strings.Index(s, ":")` for a one-character needle that occurs in `s`:
the position of its first occurrence. -/
def Index (s : String) (character : Char) : Nat :=
  s.data.indexOf character

/-- Go slice expression `s[0:hi]`. -/
def sliceTo (s : String) (hi : Nat) : String :=
  ⟨s.data.take hi⟩

/-- Go slice expression `s[lo:]`. -/
def sliceFrom (s : String) (lo : Nat) : String :=
  ⟨s.data.drop lo⟩

/-- Go `strconv.IntSize` on the 64-bit platforms kompose is built for. -/
def intSize : Nat := 64

/-- The value of a base-10 digit character, `none` for any other
character. -/
def digitVal (c : Char) : Option Nat :=
  if 48 ≤ c.toNat ∧ c.toNat ≤ 57 then some (c.toNat - 48) else none

/-- The digit loop of `strconv.ParseUint` in base 10, without the overflow
cut-off (the range check is made once on the result in `Atoi`). -/
def parseDigits : List Char → Nat → Option Nat
  | [], acc => some acc
  | c :: cs, acc =>
    match digitVal c with
    | none => none
    | some d => parseDigits cs (acc * 10 + d)

/-- Go `strconv.Atoi`, that is `ParseInt(s, 10, 0)`: an optional sign, then
one or more decimal digits, the value within the range of `int`.  Everything
else (the empty string, a lone sign, any other character, a value out of
range) is an error, `none`. -/
def Atoi (s : String) : Option Int :=
  match s.data with
  | [] => none
  | c :: cs =>
    let neg := c == '-'
    let ds := if c == '-' || c == '+' then cs else c :: cs
    match ds with
    | [] => none
    | _ :: _ =>
      match parseDigits ds 0 with
      | none => none
      | some n =>
        let v : Int := if neg then -(n : Int) else (n : Int)
        if -(2 : Int) ^ (intSize - 1) ≤ v ∧ v < (2 : Int) ^ (intSize - 1) then some v
        else none

/-- Go conversion `int32(x)` of an `int`: the low 32 bits, read as a signed
number. -/
def toInt32 (x : Int) : Int :=
  (x + 2 ^ 31) % 2 ^ 32 - 2 ^ 31

/-! ## The data model (`kobject`) -/

/-- Modelled from the spec: `kobject.Protocol`, the transport protocol of a
port binding, an enumeration of TCP and UDP. -/
inductive Protocol where
  | TCP
  | UDP
  deriving DecidableEq, Repr

/-- Modelled from the spec: `kobject.Ports`, a port binding.  `HostPort` and
`ContainerPort` are `int32` fields; a host port that was not given is the
zero value of the field. -/
structure Ports where
  HostPort : Int := 0
  ContainerPort : Int
  Protocol : Protocol
  deriving DecidableEq, Repr

/-- Modelled from the spec: `kobject.EnvVar`, an environment entry. -/
structure EnvVar where
  Name : String
  Value : String
  deriving DecidableEq, Repr

/-- A Go `map[string]string`: key/value pairs with pairwise distinct keys.
The order of `entries` is the order in which a `range` over the map visits
them, which Go leaves unspecified; every order is a value of this type. -/
structure GoMap where
  entries : List (String × String)
  nodup : (entries.map Prod.fst).Nodup

/-- Go map index expression `e[k]`, with the "comma ok" flag as the option. -/
def GoMap.get (e : GoMap) (k : String) : Option String :=
  (e.entries.find? fun kv => kv.1 == k).map Prod.snd

/-- Go `len(e)` of a map. -/
def GoMap.len (e : GoMap) : Nat :=
  e.entries.length

/-! ## The loader -/

/-- The body of `for k, v := range e` in `loadEnvVarsfromCompose`, run over
the entries in iteration order with the accumulator `envs`. -/
def loadEnvVarsLoop : List (String × String) → List EnvVar → List EnvVar
  | [], envs => envs
  | (k, v) :: rest, envs => loadEnvVarsLoop rest (envs ++ [{ Name := k, Value := v }])

/-- Source `loadEnvVarsfromCompose`: one `EnvVar` appended per map entry. -/
def loadEnvVarsfromCompose (e : GoMap) : List EnvVar :=
  loadEnvVarsLoop e.entries []

/-- The `for _, port := range composePorts` loop of `loadPortsFromCompose`,
with the accumulator `ports`; each `return nil, msg` of the source leaves the
loop at once with no bindings. -/
def loadPortsLoop : List String → List Ports → List Ports × String
  | [], ports => (ports, "")
  | port :: rest, ports =>
    let character := ':'
    let p := Protocol.TCP
    if Contains port character then
      let hostPort := TrimSpace (sliceTo port (Index port character))
      match Atoi hostPort with
      | none => ([], "Invalid host port of " ++ port)
      | some hostPortInt =>
        let containerPort := TrimSpace (sliceFrom port (Index port character + 1))
        match Atoi containerPort with
        | none => ([], "Invalid container port of " ++ port)
        | some containerPortInt =>
          loadPortsLoop rest (ports ++ [{ HostPort := toInt32 hostPortInt,
                                          ContainerPort := toInt32 containerPortInt,
                                          Protocol := p }])
    else
      match Atoi port with
      | none => ([], "Invalid container port of " ++ port)
      | some containerPortInt =>
        loadPortsLoop rest (ports ++ [{ ContainerPort := toInt32 containerPortInt,
                                        Protocol := p }])

/-- Source `loadPortsFromCompose`: the bindings of all specs and the empty
message, or no binding and the message of the first spec that fails. -/
def loadPortsFromCompose (composePorts : List String) : List Ports × String :=
  loadPortsLoop composePorts []

/-! ## The compose project (`libcompose`) and the Kompose object -/

/-- One entry of the network list of a service (libcompose `yaml.Network`);
the loader reads its `Name` only. -/
structure yaml.Network where
  Name : String
  deriving DecidableEq, Repr

/-- The fields of libcompose `config.ServiceConfig` that `LoadCompose` reads.
`Environment` stands for the map that `Environment.ToMap()` returns and
`Labels` is a map.  `Networks` is the pointer `Networks *yaml.Networks`:
`none` is the nil pointer, which libcompose leaves for a compose v1 file and
for a service with a `network_mode`, and `some l` points to a structure whose
field `Networks` is the list `l`.  The entries of `l` are the pointers that
libcompose allocates when it reads the file, none of them nil. -/
structure config.ServiceConfig where
  Image : String := ""
  ContainerName : String := ""
  Environment : GoMap := { entries := [], nodup := List.nodup_nil }
  Ports : List String := []
  WorkingDir : String := ""
  Volumes : List String := []
  Labels : GoMap := { entries := [], nodup := List.nodup_nil }
  CPUSet : String := ""
  CPUShares : Int := 0
  CPUQuota : Int := 0
  CapAdd : List String := []
  CapDrop : List String := []
  Expose : List String := []
  Privileged : Bool := false
  Restart : String := ""
  User : String := ""
  Networks : Option (List yaml.Network) := none

/-- The libcompose `config.ServiceConfigs`: a map from service name to service
definition, so with pairwise distinct names; the order of `entries` is the
order in which `Keys()` lists the names. -/
structure config.ServiceConfigs where
  entries : List (String × config.ServiceConfig)
  nodup : (entries.map Prod.fst).Nodup

/-- The libcompose method `ServiceConfigs.Keys()`. -/
def config.ServiceConfigs.Keys (c : config.ServiceConfigs) : List String :=
  c.entries.map Prod.fst

/-- The libcompose method `ServiceConfigs.Get(name)`; `none` is `ok == false`. -/
def config.ServiceConfigs.Get (c : config.ServiceConfigs) (name : String) :
    Option config.ServiceConfig :=
  (c.entries.find? fun kv => kv.1 == name).map Prod.snd

/-- The parsed libcompose `project.Project`, as far as `LoadCompose` reads it:
the services, and the names declared under the project-level `networks` and
`volumes` keys (the keys of the maps `NetworkConfigs` and `VolumeConfigs`, of
which the loader takes the length only). -/
structure project.Project where
  ServiceConfigs : config.ServiceConfigs
  NetworkConfigs : List String := []
  VolumeConfigs : List String := []

/-- Modelled from the spec: `kobject.ServiceConfig`, the Service Record, with
the fields that `LoadCompose` assigns. -/
structure kobject.ServiceConfig where
  ContainerName : String := ""
  Image : String := ""
  Environment : List EnvVar := []
  Port : List Ports := []
  WorkingDir : String := ""
  Volumes : List String := []
  Annotations : GoMap := { entries := [], nodup := List.nodup_nil }
  CPUSet : String := ""
  CPUShares : Int := 0
  CPUQuota : Int := 0
  CapAdd : List String := []
  CapDrop : List String := []
  Expose : List String := []
  Privileged : Bool := false
  Restart : String := ""
  User : String := ""

/-- Modelled from the spec: `kobject.KomposeObject`, the Application Model.
`ServiceConfigs` is a Go map from service name to record, here the list of
its key/value pairs in the order the keys were first assigned; the `nil` map
and the empty map are both `[]`. -/
structure kobject.KomposeObject where
  ServiceConfigs : List (String × kobject.ServiceConfig) := []

/-- Go map assignment `m[k] = v` on a list of key/value pairs: the value of an
existing key is replaced, a new key is added. -/
def mapSet : List (String × kobject.ServiceConfig) → String → kobject.ServiceConfig →
    List (String × kobject.ServiceConfig)
  | [], k, v => [(k, v)]
  | (k', v') :: rest, k, v =>
    if k' == k then (k', v) :: rest else (k', v') :: mapSet rest k v

/-- Go map index `m[k]` on a list of key/value pairs, with the "comma ok" flag
as the option. -/
def mapGet (m : List (String × kobject.ServiceConfig)) (k : String) :
    Option kobject.ServiceConfig :=
  (m.find? fun kv => kv.1 == k).map Prod.snd

/-- The keys of the map `komposeObject.ServiceConfigs`. -/
def kobject.KomposeObject.keys (o : kobject.KomposeObject) : List String :=
  o.ServiceConfigs.map Prod.fst

/-- The index expression `komposeObject.ServiceConfigs[name]`. -/
def kobject.KomposeObject.get (o : kobject.KomposeObject) (name : String) :
    Option kobject.ServiceConfig :=
  mapGet o.ServiceConfigs name

/-- How a run of `LoadCompose` ends: it returns a Kompose object, or it is
ended by `logrus.Fatalf` (which logs and exits the process) and returns
nothing, or it is ended by the run-time panic of a nil pointer dereference
and returns nothing.  `format` is the format string handed to `Fatalf`;
`warnings` are the messages the run handed to `logrus.Warningf` up to its
end, in order.  The warnings that `kobject.CheckUnsupportedKey` writes about
other keys are those of that collaborator and are not listed. -/
inductive Outcome where
  | returned (komposeObject : kobject.KomposeObject) (warnings : List String)
  | fatal (format : String) (warnings : List String)
  | panicked (warnings : List String)

/-- The warnings of a run. -/
def Outcome.warnings : Outcome → List String
  | .returned _ w => w
  | .fatal _ w => w
  | .panicked w => w

/-- Whether the run was ended by `logrus.Fatalf`. -/
def Outcome.isFatal : Outcome → Bool
  | .returned _ _ => false
  | .fatal _ _ => true
  | .panicked _ => false

/-- Whether the run was ended by a run-time panic. -/
def Outcome.isPanic : Outcome → Bool
  | .returned _ _ => false
  | .fatal _ _ => false
  | .panicked _ => true

/-- The Kompose object a run returns, if it returns. -/
def Outcome.model : Outcome → Option kobject.KomposeObject
  | .returned o _ => some o
  | .fatal _ _ => none
  | .panicked _ => none

/-- The format string of the `Fatalf` that ended the run, if one did. -/
def Outcome.format : Outcome → Option String
  | .returned _ _ => none
  | .fatal f _ => some f
  | .panicked _ => none

/-- The first two conjuncts of the condition of the networks warning,
`len(Networks.Networks) > 0 && Networks.Networks[0].Name != "default"`.  The
first conjunct reads the field `Networks` through the pointer `Networks`, so
on a nil pointer the evaluation panics: `none`.  The index expression is
evaluated only on a list that is not empty. -/
def networksCondition (composeServiceConfig : config.ServiceConfig) : Option Bool :=
  match composeServiceConfig.Networks with
  | none => none
  | some [] => some false
  | some (first :: _) => some (first.Name != "default")

/-- The assignments to `serviceConfig` in the body of the service loop of
`LoadCompose`, given the bindings that `loadPortsFromCompose` returned. -/
def assembleServiceConfig (composeServiceConfig : config.ServiceConfig) (ports : List Ports) :
    kobject.ServiceConfig :=
  { Image := composeServiceConfig.Image
    ContainerName := composeServiceConfig.ContainerName
    Environment := loadEnvVarsfromCompose composeServiceConfig.Environment
    Port := ports
    WorkingDir := composeServiceConfig.WorkingDir
    Volumes := composeServiceConfig.Volumes
    Annotations := composeServiceConfig.Labels
    CPUSet := composeServiceConfig.CPUSet
    CPUShares := composeServiceConfig.CPUShares
    CPUQuota := composeServiceConfig.CPUQuota
    CapAdd := composeServiceConfig.CapAdd
    CapDrop := composeServiceConfig.CapDrop
    Expose := composeServiceConfig.Expose
    Privileged := composeServiceConfig.Privileged
    Restart := composeServiceConfig.Restart
    User := composeServiceConfig.User }

/-- The loop `for _, name := range composeServiceNames` of `LoadCompose`, with
the state it updates: the map of `komposeObject`, the flag
`networksWarningFound` and the warnings logged so far.  The condition of the
networks warning is evaluated from the left, so the pointer `Networks` is
read for every service, whatever the flag, and a nil pointer ends the run.
The call of `kobject.CheckUnsupportedKey` returns nothing and changes none of
the three. -/
def serviceLoop (composeObject : project.Project) :
    List String → List (String × kobject.ServiceConfig) → Bool → List String → Outcome
  | [], serviceConfigs, _, warnings => Outcome.returned { ServiceConfigs := serviceConfigs } warnings
  | name :: rest, serviceConfigs, networksWarningFound, warnings =>
    match composeObject.ServiceConfigs.Get name with
    | none => serviceLoop composeObject rest serviceConfigs networksWarningFound warnings
    | some composeServiceConfig =>
      match networksCondition composeServiceConfig with
      | none => Outcome.panicked warnings
      | some condition =>
        let warn := condition && !networksWarningFound
        let warnings :=
          if warn then warnings ++ ["Unsupported key networks - ignoring"] else warnings
        let networksWarningFound := if warn then true else networksWarningFound
        let result := loadPortsFromCompose composeServiceConfig.Ports
        if result.2 ≠ "" then
          Outcome.fatal ("Failed to load ports from compose file: " ++ result.2) warnings
        else
          serviceLoop composeObject rest
            (mapSet serviceConfigs name (assembleServiceConfig composeServiceConfig result.1))
            networksWarningFound warnings

/-- The part of `LoadCompose` after a successful `Parse()`: the two
project-level warnings, then the service loop from the empty map with
`networksWarningFound = false`. -/
def translate (composeObject : project.Project) : Outcome :=
  let composeServiceNames := composeObject.ServiceConfigs.Keys
  let warnings : List String :=
    if composeObject.NetworkConfigs.length > 0 then
      ["Unsupported network configuration of compose v2 - ignoring"]
    else []
  let warnings :=
    if composeObject.VolumeConfigs.length > 0 then
      warnings ++ ["Unsupported volume configuration of compose v2 - ignoring"]
    else warnings
  serviceLoop composeObject composeServiceNames [] false warnings

/-- Source `LoadCompose`.  The two things it takes from its surroundings are
arguments: `getwd` is the result of `os.Getwd()` (`none` when it returns an
error), and `parse file cwd` is the result of `project.NewProject(...).Parse()`
on the compose file `file` with the environment file `.env` of the directory
`cwd` (`none` when it returns an error). -/
def LoadCompose (getwd : Option String) (parse : String → String → Option project.Project)
    (file : String) : Outcome :=
  let file := if file == "" then "docker-compose.yml" else file
  match getwd with
  | none => Outcome.returned { ServiceConfigs := [] } []
  | some cwd =>
    match parse file cwd with
    | none => Outcome.fatal "Failed to load compose file" []
    | some composeObject => translate composeObject

/-! ## Comparing service definitions -/

/-- A service definition with its network list left out, to compare two
definitions in everything but their network lists. -/
def withoutNetworks (c : config.ServiceConfig) : config.ServiceConfig :=
  { c with Networks := none }

/-- A service definition with its environment map left out, to compare two
definitions in everything but their environment. -/
def withoutEnvironment (c : config.ServiceConfig) : config.ServiceConfig :=
  { c with Environment := { entries := [], nodup := List.nodup_nil } }

/-! ## Example projects -/

/-- The network list that libcompose gives to a service of a compose v2 file
that declares no networks: the one entry `default`. -/
def defaultNetworks : Option (List yaml.Network) :=
  some [{ Name := "default" }]

/-- A project with the two services `web` and `db`, without labels, volumes
or networks. -/
def twoServices : project.Project :=
  { ServiceConfigs :=
      { entries := [("web", { Image := "nginx", Ports := ["8080:80"],
                              Networks := defaultNetworks }),
                    ("db", { Image := "postgres", Ports := ["5432"],
                             Networks := defaultNetworks })]
        nodup := by decide } }

/-- A project with one service `api` that carries the label `env=prod` and
the environment `A=1`, and one service `job` without labels. -/
def labelled : project.Project :=
  { ServiceConfigs :=
      { entries := [("api", { Image := "api:1", ContainerName := "api", WorkingDir := "/srv",
                              Volumes := ["/data:/data"], Ports := ["80"],
                              Environment := { entries := [("A", "1")], nodup := by decide },
                              Labels := { entries := [("env", "prod")], nodup := by decide },
                              CPUShares := 512, Privileged := true, Restart := "always",
                              User := "app", Networks := defaultNetworks }),
                    ("job", { Image := "job:1", Networks := defaultNetworks })]
        nodup := by decide } }

/-- A project whose one service `web` lists the networks `default` and
`front`, in this order. -/
def defaultFirst : project.Project :=
  { ServiceConfigs :=
      { entries := [("web", { Image := "nginx", Ports := ["80"],
                              Networks := some [{ Name := "default" }, { Name := "front" }] })]
        nodup := by decide }
    NetworkConfigs := ["front"] }

/-- A project whose two services `web` and `db` both list the network `front`
first. -/
def frontFirst : project.Project :=
  { ServiceConfigs :=
      { entries := [("web", { Image := "nginx", Ports := ["80"],
                              Networks := some [{ Name := "front" }] }),
                    ("db", { Image := "postgres",
                             Networks := some [{ Name := "front" }, { Name := "default" }] })]
        nodup := by decide }
    NetworkConfigs := ["front"] }

/-- The project `frontFirst` without its networks, its services listed in the
other order: no project-level network, and the network list of each service
reduced to `default`. -/
def frontFirstNoNetworks : project.Project :=
  { ServiceConfigs :=
      { entries := [("db", { Image := "postgres", Networks := defaultNetworks }),
                    ("web", { Image := "nginx", Ports := ["80"], Networks := defaultNetworks })]
        nodup := by decide }
    VolumeConfigs := ["data"] }

/-- A project whose service `web` has the environment `A=1`, `B=2`, the map
being visited in the order `A`, `B`. -/
def envAB : project.Project :=
  { ServiceConfigs :=
      { entries := [("web", { Image := "nginx", Ports := ["80"],
                              Environment := { entries := [("A", "1"), ("B", "2")],
                                               nodup := by decide },
                              Networks := defaultNetworks })]
        nodup := by decide } }

/-- The project `envAB`, its environment map being visited in the order `B`,
`A`. -/
def envBA : project.Project :=
  { ServiceConfigs :=
      { entries := [("web", { Image := "nginx", Ports := ["80"],
                              Environment := { entries := [("B", "2"), ("A", "1")],
                                               nodup := by decide },
                              Networks := defaultNetworks })]
        nodup := by decide } }

/-- The project `envBA` with the named volume `data` declared. -/
def envBAVolumes : project.Project :=
  { envBA with VolumeConfigs := ["data"] }

/-- A project whose service `web` runs with `network_mode: host`, so that
libcompose leaves its `Networks` pointer nil; its ports parse. -/
def hostMode : project.Project :=
  { ServiceConfigs :=
      { entries := [("web", { Image := "nginx", Ports := ["80"], Networks := none })]
        nodup := by decide } }

/-- The project `hostMode` with the port spec `x`, which does not parse. -/
def hostModeBadPort : project.Project :=
  { ServiceConfigs :=
      { entries := [("web", { Image := "nginx", Ports := ["x"], Networks := none })]
        nodup := by decide } }

/-- The project `hostMode` with the pointer set, to the one entry `default`. -/
def bridgeMode : project.Project :=
  { ServiceConfigs :=
      { entries := [("web", { Image := "nginx", Ports := ["80"], Networks := defaultNetworks })]
        nodup := by decide } }

/-- A project whose services `a` and `b` both have a port spec that does not
parse (`x` and `y`), and of which `a` lists the network `front`; `Keys()`
lists `a` before `b`. -/
def badPortsAB : project.Project :=
  { ServiceConfigs :=
      { entries := [("a", { Image := "a", Ports := ["x"],
                            Networks := some [{ Name := "front" }] }),
                    ("b", { Image := "b", Ports := ["y"], Networks := defaultNetworks })]
        nodup := by decide } }

/-- The project `badPortsAB`, `Keys()` listing `b` before `a`. -/
def badPortsBA : project.Project :=
  { ServiceConfigs :=
      { entries := [("b", { Image := "b", Ports := ["y"], Networks := defaultNetworks }),
                    ("a", { Image := "a", Ports := ["x"],
                            Networks := some [{ Name := "front" }] })]
        nodup := by decide } }

/-! ## Splitting a spec at its first colon -/

theorem colon_data : (":" : String).data = [':'] := rfl

theorem contains_split (a b : String) : Contains (a ++ ":" ++ b) ':' = true := by
  simp [Contains, String.data_append, colon_data]

theorem contains_eq_false_iff (s : String) : Contains s ':' = false ↔ ':' ∉ s.data := by
  simp [Contains]

theorem index_split (a b : String) (ha : ':' ∉ a.data) :
    Index (a ++ ":" ++ b) ':' = a.data.length := by
  simp only [Index, String.data_append, colon_data, List.append_assoc]
  rw [List.indexOf_append_of_not_mem ha]
  simp

theorem sliceTo_split (a b : String) (ha : ':' ∉ a.data) :
    sliceTo (a ++ ":" ++ b) (Index (a ++ ":" ++ b) ':') = a := by
  rw [index_split a b ha]
  apply String.ext
  simp [sliceTo, String.data_append]

theorem sliceFrom_split (a b : String) (ha : ':' ∉ a.data) :
    sliceFrom (a ++ ":" ++ b) (Index (a ++ ":" ++ b) ':' + 1) = b := by
  rw [index_split a b ha]
  apply String.ext
  simp only [sliceFrom, String.data_append, colon_data, List.append_assoc]
  rw [← List.drop_drop, List.drop_left]
  simp

/-- Every string with a colon is `a ++ ":" ++ b` with no colon in `a`. -/
theorem exists_split (s : String) (hs : ':' ∈ s.data) :
    ∃ a b : String, s = a ++ ":" ++ b ∧ ':' ∉ a.data := by
  refine ⟨⟨s.data.takeWhile fun c => c != ':'⟩,
    ⟨(s.data.dropWhile fun c => c != ':').drop 1⟩, ?_, ?_⟩
  · apply String.ext
    simp only [String.data_append, colon_data, List.append_assoc]
    have hne : (s.data.dropWhile fun c => c != ':') ≠ [] := by
      intro h
      rw [List.dropWhile_eq_nil_iff] at h
      simpa using h ':' hs
    obtain ⟨c, t, hct⟩ := List.exists_cons_of_ne_nil hne
    have hc : c = ':' := by
      have := List.head_dropWhile_not (fun c => c != ':') s.data hne
      simp only [hct, List.head_cons] at this
      simpa using this
    conv_lhs => rw [← List.takeWhile_append_dropWhile (fun c => c != ':') s.data]
    rw [hct, hc]
    simp
  · intro h
    have := List.mem_takeWhile_imp h
    simp at this

/-! ## Decimal numerals and `Atoi` -/

theorem digitVal_digitChar (m : Nat) (hm : m < 10) : digitVal (Nat.digitChar m) = some m := by
  interval_cases m <;> rfl

theorem isSpace_digitChar (m : Nat) (hm : m < 10) : isSpace (Nat.digitChar m) = false := by
  interval_cases m <;> rfl

theorem digitVal_colon_free (c : Char) (h : digitVal c ≠ none) : c ≠ ':' := by
  rintro rfl
  exact h rfl

theorem parseDigits_append (ds es : List Char) (acc : Nat) :
    parseDigits (ds ++ es) acc = (parseDigits ds acc).bind fun v => parseDigits es v := by
  induction ds generalizing acc with
  | nil => rfl
  | cons c cs ih =>
    simp only [List.cons_append, parseDigits]
    cases digitVal c with
    | none => rfl
    | some d => exact ih _

theorem toDigitsCore_acc (fuel n : Nat) (acc : List Char) :
    Nat.toDigitsCore 10 fuel n acc = Nat.toDigitsCore 10 fuel n [] ++ acc := by
  induction fuel generalizing n acc with
  | zero => rfl
  | succ f ih =>
    simp only [Nat.toDigitsCore]
    split
    · rfl
    · rw [ih (n / 10) (Nat.digitChar (n % 10) :: acc), ih (n / 10) [Nat.digitChar (n % 10)]]
      simp

/-- What the loader needs to know of a decimal numeral: it is not empty, all
its characters are decimal digits, and the digit loop reads its value back. -/
theorem toDigitsCore_reads_back (fuel n : Nat) (h : n < fuel) :
    Nat.toDigitsCore 10 fuel n [] ≠ [] ∧
    (∀ c ∈ Nat.toDigitsCore 10 fuel n [], ∃ m, m < 10 ∧ c = Nat.digitChar m) ∧
    parseDigits (Nat.toDigitsCore 10 fuel n []) 0 = some n := by
  induction fuel generalizing n with
  | zero => omega
  | succ f ih =>
    simp only [Nat.toDigitsCore]
    by_cases h10 : n / 10 = 0
    · have hn : n < 10 := by omega
      simp only [h10, if_true]
      refine ⟨by simp, ?_, ?_⟩
      · intro c hc
        exact ⟨n % 10, by omega, by simpa using hc⟩
      · rw [Nat.mod_eq_of_lt hn]
        simp [parseDigits, digitVal_digitChar n hn]
    · simp only [h10, if_false]
      rw [toDigitsCore_acc]
      obtain ⟨_, hall, hval⟩ := ih (n / 10) (by omega)
      refine ⟨by simp, ?_, ?_⟩
      · intro c hc
        rcases List.mem_append.mp hc with hc | hc
        · exact hall c hc
        · exact ⟨n % 10, by omega, by simpa using hc⟩
      · rw [parseDigits_append, hval]
        simp only [Option.some_bind, parseDigits, digitVal_digitChar (n % 10) (by omega)]
        congr 1
        omega

theorem repr_data (n : Nat) : (toString n).data = Nat.toDigits 10 n := rfl

theorem repr_ne_nil (n : Nat) : (toString n).data ≠ [] :=
  (toDigitsCore_reads_back (n + 1) n (by omega)).1

theorem repr_digits (n : Nat) : ∀ c ∈ (toString n).data, ∃ m, m < 10 ∧ c = Nat.digitChar m :=
  (toDigitsCore_reads_back (n + 1) n (by omega)).2.1

theorem repr_parse (n : Nat) : parseDigits (toString n).data 0 = some n :=
  (toDigitsCore_reads_back (n + 1) n (by omega)).2.2

theorem repr_no_colon (n : Nat) : ':' ∉ (toString n).data := by
  intro h
  obtain ⟨m, hm, hc⟩ := repr_digits n _ h
  have hv := digitVal_digitChar m hm
  have hcolon : digitVal ':' = none := rfl
  rw [← hc, hcolon] at hv
  cases hv

/-- `Atoi` reads a decimal numeral back, as long as the value fits an `int`. -/
theorem Atoi_repr (n : Nat) (hn : n < 2 ^ 63) : Atoi (toString n) = some (n : Int) := by
  have hne := repr_ne_nil n
  have hdig := repr_digits n
  have hval := repr_parse n
  unfold Atoi
  obtain ⟨c, cs, hcs⟩ := List.exists_cons_of_ne_nil hne
  rw [hcs] at hdig hval
  simp only [hcs]
  obtain ⟨m, hm, hc⟩ := hdig c (by simp)
  have hplus : c ≠ '+' := by
    subst hc
    interval_cases m <;> decide
  have hneg : c ≠ '-' := by
    subst hc
    interval_cases m <;> decide
  simp only [beq_iff_eq, Bool.or_eq_true, hplus, hneg, or_self, if_false, hval]
  have h1 : -(2 : Int) ^ (intSize - 1) ≤ (n : Int) := by
    have : (0 : Int) ≤ (2 : Int) ^ (intSize - 1) := by positivity
    omega
  have h2 : (n : Int) < (2 : Int) ^ (intSize - 1) := by
    simp only [intSize]
    exact_mod_cast hn
  simp [h1, h2]

theorem toInt32_of_range (x : Int) (h1 : -(2 : Int) ^ 31 ≤ x) (h2 : x < 2 ^ 31) :
    toInt32 x = x := by
  unfold toInt32
  omega

theorem toInt32_range (x : Int) : -(2 : Int) ^ 31 ≤ toInt32 x ∧ toInt32 x < 2 ^ 31 := by
  unfold toInt32
  omega

/-! ## White space -/

theorem dropWhile_of_all {p : Char → Bool} (w l : List Char) (hw : ∀ c ∈ w, p c = true) :
    (w ++ l).dropWhile p = l.dropWhile p := by
  induction w with
  | nil => rfl
  | cons c cs ih =>
    have hc : p c = true := hw c (by simp)
    simp only [List.cons_append, List.dropWhile_cons, hc, if_true]
    exact ih fun x hx => hw x (by simp [hx])

theorem dropWhile_of_none {p : Char → Bool} (l : List Char) (hl : ∀ c ∈ l, p c = false) :
    l.dropWhile p = l := by
  cases l with
  | nil => rfl
  | cons c cs => simp [List.dropWhile_cons, hl c (by simp)]

theorem mem_dropWhile_of_not {p : Char → Bool} (x : Char) (hx : p x = false) (l : List Char)
    (hl : x ∈ l) : x ∈ l.dropWhile p := by
  induction l with
  | nil => cases hl
  | cons c cs ih =>
    rw [List.dropWhile_cons]
    split
    · rcases List.mem_cons.mp hl with h | h
      · subst h
        simp_all
      · exact ih h
    · exact hl

/-- The trimming of both ends of a list of characters that `TrimSpace`
performs. -/
theorem TrimSpace_data (s : String) :
    (TrimSpace s).data = ((s.data.dropWhile isSpace).reverse.dropWhile isSpace).reverse := rfl

/-- White space added in front of and behind a text does not change what
`TrimSpace` returns. -/
theorem TrimSpace_pad (w₁ s w₂ : String) (h₁ : ∀ c ∈ w₁.data, isSpace c = true)
    (h₂ : ∀ c ∈ w₂.data, isSpace c = true) : TrimSpace (w₁ ++ s ++ w₂) = TrimSpace s := by
  apply String.ext
  simp only [TrimSpace_data, String.data_append, List.append_assoc]
  rw [dropWhile_of_all w₁.data _ h₁, List.dropWhile_append]
  by_cases hs : (s.data.dropWhile isSpace).isEmpty = true
  · have hnil : s.data.dropWhile isSpace = [] := by simpa using hs
    have hw : w₂.data.dropWhile isSpace = [] := List.dropWhile_eq_nil_iff.mpr h₂
    simp [hnil, hw]
  · simp only [hs, if_false, Bool.false_eq_true, List.reverse_append]
    rw [dropWhile_of_all w₂.data.reverse _ (fun c hc => h₂ c (List.mem_reverse.mp hc))]

/-- A text without white space is left as it is by `TrimSpace`. -/
theorem TrimSpace_clean (s : String) (hs : ∀ c ∈ s.data, isSpace c = false) :
    TrimSpace s = s := by
  apply String.ext
  rw [TrimSpace_data, dropWhile_of_none s.data hs,
    dropWhile_of_none s.data.reverse (fun c hc => hs c (List.mem_reverse.mp hc)),
    List.reverse_reverse]

theorem TrimSpace_keeps_colon (s : String) (hs : ':' ∈ s.data) : ':' ∈ (TrimSpace s).data := by
  rw [TrimSpace_data, List.mem_reverse]
  apply mem_dropWhile_of_not ':' rfl
  rw [List.mem_reverse]
  exact mem_dropWhile_of_not ':' rfl _ hs

theorem TrimSpace_repr (n : Nat) : TrimSpace (toString n) = toString n := by
  apply TrimSpace_clean
  intro c hc
  obtain ⟨m, hm, rfl⟩ := repr_digits n c hc
  exact isSpace_digitChar m hm

/-! ## What `Atoi` rejects -/

theorem parseDigits_digits (ds : List Char) (acc n : Nat) (h : parseDigits ds acc = some n) :
    ∀ c ∈ ds, digitVal c ≠ none := by
  induction ds generalizing acc with
  | nil => intro c hc; cases hc
  | cons d ds ih =>
    intro c hc
    simp only [parseDigits] at h
    cases hd : digitVal d with
    | none => simp [hd] at h
    | some v =>
      rw [hd] at h
      rcases List.mem_cons.mp hc with rfl | hc
      · simp [hd]
      · exact ih _ h c hc

theorem Atoi_empty : Atoi "" = none := rfl

/-- A text that `Atoi` accepts has no colon in it. -/
theorem Atoi_no_colon (s : String) (v : Int) (h : Atoi s = some v) : ':' ∉ s.data := by
  unfold Atoi at h
  cases hd : s.data with
  | nil => simp [hd] at h
  | cons c cs =>
    simp only [hd] at h
    split at h
    · cases h
    · rename_i x xs hds
      rw [hds] at h
      cases hp : parseDigits (x :: xs) 0 with
      | none => simp [hp] at h
      | some n =>
        have hdig := parseDigits_digits _ _ _ hp
        intro hmem
        by_cases hsign : (c == '-' || c == '+') = true
        · have hcs : cs = x :: xs := by simpa [hsign] using hds
          rcases List.mem_cons.mp hmem with hc | hc
          · subst hc
            exact absurd hsign (by decide)
          · exact digitVal_colon_free _ (hdig _ (hcs ▸ hc)) rfl
        · have hcs : c :: cs = x :: xs := by simpa [hsign] using hds
          exact digitVal_colon_free _ (hdig _ (hcs ▸ hmem)) rfl

theorem Atoi_colon (s : String) (hs : ':' ∈ s.data) : Atoi s = none := by
  cases h : Atoi s with
  | none => rfl
  | some v => exact absurd hs (Atoi_no_colon s v h)

/-! ## One iteration of the port loop, and the loop as a whole -/

theorem host_msg_ne (port : String) : "Invalid host port of " ++ port ≠ "" := by
  intro h
  have := congrArg String.data h
  rw [String.data_append] at this
  cases this

theorem container_msg_ne (port : String) : "Invalid container port of " ++ port ≠ "" := by
  intro h
  have := congrArg String.data h
  rw [String.data_append] at this
  cases this

/-- The two messages for one spec differ (at their ninth character). -/
theorem host_msg_ne_container_msg (port : String) :
    "Invalid host port of " ++ port ≠ "Invalid container port of " ++ port := by
  intro h
  have := congrArg String.data h
  rw [String.data_append, String.data_append] at this
  have h8 := congrArg (fun l => l.get? 8) this
  simp at h8

/-- The parser on a single two-part spec. -/
theorem single_colon (port : String) (hc : Contains port ':' = true) :
    loadPortsFromCompose [port] =
      match Atoi (TrimSpace (sliceTo port (Index port ':'))) with
      | none => ([], "Invalid host port of " ++ port)
      | some hostPortInt =>
        match Atoi (TrimSpace (sliceFrom port (Index port ':' + 1))) with
        | none => ([], "Invalid container port of " ++ port)
        | some containerPortInt =>
          ([{ HostPort := toInt32 hostPortInt, ContainerPort := toInt32 containerPortInt,
              Protocol := Protocol.TCP }], "") := by
  simp only [loadPortsFromCompose, loadPortsLoop, hc, if_true]
  cases Atoi (TrimSpace (sliceTo port (Index port ':'))) with
  | none => rfl
  | some h =>
    cases Atoi (TrimSpace (sliceFrom port (Index port ':' + 1))) with
    | none => rfl
    | some c => rfl

/-- The parser on a single container-only spec. -/
theorem single_plain (port : String) (hc : Contains port ':' = false) :
    loadPortsFromCompose [port] =
      match Atoi port with
      | none => ([], "Invalid container port of " ++ port)
      | some containerPortInt =>
        ([{ HostPort := 0, ContainerPort := toInt32 containerPortInt,
            Protocol := Protocol.TCP }], "") := by
  simp only [loadPortsFromCompose, loadPortsLoop, hc, Bool.false_eq_true, if_false]
  cases Atoi port with
  | none => rfl
  | some c => rfl

/-- The outcomes of the parser on a single spec: one of the two errors with
no binding, or one TCP binding with `int32` fields and the empty message. -/
theorem single_cases (port : String) :
    loadPortsFromCompose [port] = ([], "Invalid host port of " ++ port) ∨
    loadPortsFromCompose [port] = ([], "Invalid container port of " ++ port) ∨
    ∃ b : Ports, loadPortsFromCompose [port] = ([b], "") ∧ b.Protocol = Protocol.TCP ∧
      (-(2 : Int) ^ 31 ≤ b.ContainerPort ∧ b.ContainerPort < 2 ^ 31) ∧
      (Contains port ':' = false → b.HostPort = 0) := by
  cases hc : Contains port ':' with
  | true =>
    rw [single_colon port hc]
    cases Atoi (TrimSpace (sliceTo port (Index port ':'))) with
    | none => exact Or.inl rfl
    | some h =>
      cases Atoi (TrimSpace (sliceFrom port (Index port ':' + 1))) with
      | none => exact Or.inr (Or.inl rfl)
      | some c => exact Or.inr (Or.inr ⟨_, rfl, rfl, toInt32_range c, by simp⟩)
  | false =>
    rw [single_plain port hc]
    cases Atoi port with
    | none => exact Or.inr (Or.inl rfl)
    | some c => exact Or.inr (Or.inr ⟨_, rfl, rfl, toInt32_range c, fun _ => rfl⟩)

/-- One step of the loop, in terms of the parser on the single spec. -/
theorem loop_cons (port : String) (rest : List String) (acc : List Ports) :
    loadPortsLoop (port :: rest) acc =
      if (loadPortsFromCompose [port]).2 = "" then
        loadPortsLoop rest (acc ++ (loadPortsFromCompose [port]).1)
      else ([], (loadPortsFromCompose [port]).2) := by
  cases hc : Contains port ':' with
  | true =>
    rw [single_colon port hc]
    simp only [loadPortsLoop, hc, if_true]
    cases Atoi (TrimSpace (sliceTo port (Index port ':'))) with
    | none => simp [host_msg_ne]
    | some h =>
      cases Atoi (TrimSpace (sliceFrom port (Index port ':' + 1))) with
      | none => simp [container_msg_ne]
      | some c => simp
  | false =>
    rw [single_plain port hc]
    simp only [loadPortsLoop, hc, Bool.false_eq_true, if_false]
    cases Atoi port with
    | none => simp [container_msg_ne]
    | some c => simp

/-- A failing single spec yields no binding. -/
theorem single_fail_nil (port : String) (h : (loadPortsFromCompose [port]).2 ≠ "") :
    (loadPortsFromCompose [port]).1 = [] := by
  rcases single_cases port with h1 | h1 | ⟨b, h1, _⟩
  · rw [h1]
  · rw [h1]
  · rw [h1] at h
    exact absurd rfl h

/-- The loop over specs that all parse: the bindings of the specs, one after
the other, behind the accumulator. -/
theorem loop_all_ok (xs : List String) (acc : List Ports)
    (h : ∀ x ∈ xs, (loadPortsFromCompose [x]).2 = "") :
    loadPortsLoop xs acc = (acc ++ xs.flatMap fun x => (loadPortsFromCompose [x]).1, "") := by
  induction xs generalizing acc with
  | nil => simp [loadPortsLoop]
  | cons x xs ih =>
    rw [loop_cons, if_pos (h x (by simp)), ih _ (fun y hy => h y (by simp [hy]))]
    simp

/-- The loop stops at the first spec that fails, with that spec's message and
no binding. -/
theorem loop_first_fail (pre : List String) (s : String) (post : List String) (acc : List Ports)
    (hpre : ∀ x ∈ pre, (loadPortsFromCompose [x]).2 = "")
    (hs : (loadPortsFromCompose [s]).2 ≠ "") :
    loadPortsLoop (pre ++ s :: post) acc = ([], (loadPortsFromCompose [s]).2) := by
  induction pre generalizing acc with
  | nil => simp [loop_cons, hs]
  | cons x xs ih =>
    rw [List.cons_append, loop_cons, if_pos (hpre x (by simp))]
    exact ih _ (fun y hy => hpre y (by simp [hy]))

/-- A list with a failing spec has a first failing spec. -/
theorem exists_first_fail (xs : List String)
    (h : ∃ x ∈ xs, (loadPortsFromCompose [x]).2 ≠ "") :
    ∃ pre s post, xs = pre ++ s :: post ∧ (∀ x ∈ pre, (loadPortsFromCompose [x]).2 = "") ∧
      (loadPortsFromCompose [s]).2 ≠ "" := by
  induction xs with
  | nil => simp at h
  | cons x xs ih =>
    by_cases hx : (loadPortsFromCompose [x]).2 = ""
    · have h2 : ∃ y ∈ xs, (loadPortsFromCompose [y]).2 ≠ "" := by
        obtain ⟨y, hy, hyf⟩ := h
        rcases List.mem_cons.mp hy with rfl | hy
        · exact absurd hx hyf
        · exact ⟨y, hy, hyf⟩
      obtain ⟨pre, s, post, rfl, hpre, hs⟩ := ih h2
      refine ⟨x :: pre, s, post, rfl, ?_, hs⟩
      intro y hy
      rcases List.mem_cons.mp hy with rfl | hy
      · exact hx
      · exact hpre y hy
    · exact ⟨[], x, xs, rfl, by simp, hx⟩

/-- The parser succeeds on a list exactly when it succeeds on every spec. -/
theorem ok_iff_all_ok (xs : List String) :
    (loadPortsFromCompose xs).2 = "" ↔ ∀ x ∈ xs, (loadPortsFromCompose [x]).2 = "" := by
  constructor
  · intro h
    by_contra hne
    push_neg at hne
    obtain ⟨pre, s, post, rfl, hpre, hs⟩ := exists_first_fail xs hne
    rw [loadPortsFromCompose, loop_first_fail pre s post [] hpre hs] at h
    exact hs h
  · intro h
    rw [loadPortsFromCompose, loop_all_ok xs [] h]

/-- The bindings of a successful run are those of the single specs, in
order. -/
theorem ok_bindings (xs : List String) (h : (loadPortsFromCompose xs).2 = "") :
    (loadPortsFromCompose xs).1 = xs.flatMap fun x => (loadPortsFromCompose [x]).1 := by
  rw [loadPortsFromCompose, loop_all_ok xs [] ((ok_iff_all_ok xs).mp h)]
  simp

/-- Every binding the parser returns is the binding of one spec of the list
that parses on its own. -/
theorem mem_bindings (xs : List String) (b : Ports) (hb : b ∈ (loadPortsFromCompose xs).1) :
    ∃ x ∈ xs, loadPortsFromCompose [x] = ([b], "") := by
  by_cases h : (loadPortsFromCompose xs).2 = ""
  · rw [ok_bindings xs h, List.mem_flatMap] at hb
    obtain ⟨x, hx, hbx⟩ := hb
    refine ⟨x, hx, ?_⟩
    rcases single_cases x with h1 | h1 | ⟨b', h1, _⟩
    · rw [h1] at hbx; cases hbx
    · rw [h1] at hbx; cases hbx
    · rw [h1] at hbx ⊢
      simp only [List.mem_singleton] at hbx
      rw [hbx]
  · have hne : ∃ x ∈ xs, (loadPortsFromCompose [x]).2 ≠ "" := by
      by_contra hall
      push_neg at hall
      exact h ((ok_iff_all_ok xs).mpr hall)
    obtain ⟨pre, s, post, rfl, hpre, hs⟩ := exists_first_fail xs hne
    rw [loadPortsFromCompose, loop_first_fail pre s post [] hpre hs] at hb
    cases hb

/-- Padding the two sides of a two-part spec with white space: the colon of
the padded spec is found at the end of the padded host side, and the two
trimmed sides are those of the spec without the padding. -/
theorem single_padded (a b w₁ w₂ w₃ w₄ : String) (ha : ':' ∉ a.data)
    (h₁ : ∀ x ∈ w₁.data, isSpace x = true) (h₂ : ∀ x ∈ w₂.data, isSpace x = true)
    (h₃ : ∀ x ∈ w₃.data, isSpace x = true) (h₄ : ∀ x ∈ w₄.data, isSpace x = true) :
    loadPortsFromCompose [w₁ ++ a ++ w₂ ++ ":" ++ w₃ ++ b ++ w₄] =
      match Atoi (TrimSpace a) with
      | none => ([], "Invalid host port of " ++ (w₁ ++ a ++ w₂ ++ ":" ++ w₃ ++ b ++ w₄))
      | some hostPortInt =>
        match Atoi (TrimSpace b) with
        | none => ([], "Invalid container port of " ++ (w₁ ++ a ++ w₂ ++ ":" ++ w₃ ++ b ++ w₄))
        | some containerPortInt =>
          ([{ HostPort := toInt32 hostPortInt, ContainerPort := toInt32 containerPortInt,
              Protocol := Protocol.TCP }], "") := by
  have hshape : w₁ ++ a ++ w₂ ++ ":" ++ w₃ ++ b ++ w₄ = (w₁ ++ a ++ w₂) ++ ":" ++ (w₃ ++ b ++ w₄) := by
    apply String.ext
    simp [String.data_append, List.append_assoc]
  have hfree : ':' ∉ (w₁ ++ a ++ w₂).data := by
    simp only [String.data_append, List.mem_append, not_or]
    refine ⟨⟨fun h => ?_, ha⟩, fun h => ?_⟩
    · exact absurd (h₁ _ h) (by decide)
    · exact absurd (h₂ _ h) (by decide)
  rw [hshape, single_colon _ (contains_split _ _), sliceTo_split _ _ hfree,
    sliceFrom_split _ _ hfree, TrimSpace_pad w₁ a w₂ h₁ h₂, TrimSpace_pad w₃ b w₄ h₃ h₄]

theorem forall₂_flatMap_single {R : String → Ports → Prop} (f : String → List Ports)
    (xs : List String) (h : ∀ x ∈ xs, ∃ b, f x = [b] ∧ R x b) :
    List.Forall₂ R xs (xs.flatMap f) := by
  induction xs with
  | nil => exact List.Forall₂.nil
  | cons x xs ih =>
    obtain ⟨b, hb, hR⟩ := h x (by simp)
    rw [List.flatMap_cons, hb]
    exact List.Forall₂.cons hR (ih fun y hy => h y (by simp [hy]))

/-! ## The claims about the port parser -/

/-- C1: on a two-part spec made of the decimal numeral of a host port `h`, a
colon and the decimal numeral of a container port `c`, both in `0..65535`,
with any white space around either numeral, `loadPortsFromCompose` returns
the empty error string and exactly one binding, with `HostPort = h`,
`ContainerPort = c` and protocol TCP; `"8080:80"` gives
`{HostPort 8080, ContainerPort 80, TCP}`. -/
theorem C1_two_part_spec (h c : Nat) (hh : h ≤ 65535) (hc : c ≤ 65535)
    (w₁ w₂ w₃ w₄ : String)
    (h₁ : ∀ x ∈ w₁.data, isSpace x = true) (h₂ : ∀ x ∈ w₂.data, isSpace x = true)
    (h₃ : ∀ x ∈ w₃.data, isSpace x = true) (h₄ : ∀ x ∈ w₄.data, isSpace x = true) :
    loadPortsFromCompose [w₁ ++ toString h ++ w₂ ++ ":" ++ w₃ ++ toString c ++ w₄] =
        ([{ HostPort := (h : Int), ContainerPort := (c : Int), Protocol := Protocol.TCP }], "") ∧
    loadPortsFromCompose ["8080:80"] =
        ([{ HostPort := 8080, ContainerPort := 80, Protocol := Protocol.TCP }], "") := by
  refine ⟨?_, by decide⟩
  rw [single_padded _ _ w₁ w₂ w₃ w₄ (repr_no_colon h) h₁ h₂ h₃ h₄, TrimSpace_repr, TrimSpace_repr,
    Atoi_repr h (by omega), Atoi_repr c (by omega)]
  simp only
  rw [toInt32_of_range h (by omega) (by omega), toInt32_of_range c (by omega) (by omega)]

/-- Witness of C1: host 8080 and container 80 with blanks and a tab around
them. -/
theorem C1_two_part_spec_witness :
    loadPortsFromCompose [" " ++ toString 8080 ++ "\t" ++ ":" ++ "  " ++ toString 80 ++ ""] =
        ([{ HostPort := 8080, ContainerPort := 80, Protocol := Protocol.TCP }], "") ∧
    loadPortsFromCompose ["8080:80"] =
        ([{ HostPort := 8080, ContainerPort := 80, Protocol := Protocol.TCP }], "") :=
  C1_two_part_spec 8080 80 (by decide) (by decide) " " "\t" "  " "" (by decide) (by decide)
    (by decide) (by decide)

/-- C2: on the decimal numeral of a container port `c` in `0..65535`, without
a colon, `loadPortsFromCompose` returns the empty error string and exactly
one binding with `ContainerPort = c`, protocol TCP and `HostPort` at its zero
value (absent).  On every successful parse of a list, the bindings match the
specs one to one in order, the binding of a spec without a colon has
`HostPort = 0`, and so a binding with a non-zero host port comes from a spec
with a colon.  `"3000"` gives `{host absent, ContainerPort 3000, TCP}`. -/
theorem C2_container_only_spec :
    (∀ c : Nat, c ≤ 65535 →
      loadPortsFromCompose [toString c] =
        ([{ HostPort := 0, ContainerPort := (c : Int), Protocol := Protocol.TCP }], "")) ∧
    (∀ xs : List String, (loadPortsFromCompose xs).2 = "" →
      List.Forall₂
        (fun spec b => (Contains spec ':' = false → b.HostPort = 0) ∧
          (b.HostPort ≠ 0 → Contains spec ':' = true))
        xs (loadPortsFromCompose xs).1) ∧
    loadPortsFromCompose ["3000"] =
      ([{ HostPort := 0, ContainerPort := 3000, Protocol := Protocol.TCP }], "") := by
  refine ⟨?_, ?_, by decide⟩
  · intro c hc
    rw [single_plain _ ((contains_eq_false_iff _).mpr (repr_no_colon c)), Atoi_repr c (by omega)]
    simp only
    rw [toInt32_of_range c (by omega) (by omega)]
  · intro xs hok
    rw [ok_bindings xs hok]
    apply forall₂_flatMap_single
    intro x hx
    have hxok := (ok_iff_all_ok xs).mp hok x hx
    rcases single_cases x with h1 | h1 | ⟨b, h1, _, _, hhost⟩
    · rw [h1] at hxok
      exact absurd hxok (host_msg_ne x)
    · rw [h1] at hxok
      exact absurd hxok (container_msg_ne x)
    · refine ⟨b, by rw [h1], hhost, fun hne => ?_⟩
      by_contra hcon
      exact hne (hhost (by simpa using hcon))

/-- Witness of C2: container port 3000, and the list `"3000", "8080:80"`
whose first binding has no host port. -/
theorem C2_container_only_spec_witness :
    ((3000 : Nat) ≤ 65535 ∧
      loadPortsFromCompose [toString 3000] =
        ([{ HostPort := 0, ContainerPort := ((3000 : Nat) : Int), Protocol := Protocol.TCP }], "")) ∧
    ((loadPortsFromCompose ["3000", "8080:80"]).2 = "" ∧
      List.Forall₂
        (fun spec b => (Contains spec ':' = false → b.HostPort = 0) ∧
          (b.HostPort ≠ 0 → Contains spec ':' = true))
        ["3000", "8080:80"] (loadPortsFromCompose ["3000", "8080:80"]).1) :=
  ⟨⟨by decide, C2_container_only_spec.1 3000 (by decide)⟩,
   ⟨by decide, C2_container_only_spec.2.1 ["3000", "8080:80"] (by decide)⟩⟩

/-- C3, as stated, fails: the specs `"-1"`, `"70000"` and `"80:99999"` parse
without error and yield bindings with container ports -1, 70000 and 99999,
none of them a 16-bit unsigned value. -/
theorem C3_counterexample :
    loadPortsFromCompose ["-1", "70000", "80:99999"] =
      ([{ HostPort := 0, ContainerPort := -1, Protocol := Protocol.TCP },
        { HostPort := 0, ContainerPort := 70000, Protocol := Protocol.TCP },
        { HostPort := 80, ContainerPort := 99999, Protocol := Protocol.TCP }], "") ∧
    ¬ (∀ xs : List String, (loadPortsFromCompose xs).2 = "" →
        ∀ b ∈ (loadPortsFromCompose xs).1, 0 ≤ b.ContainerPort ∧ b.ContainerPort ≤ 65535) := by
  refine ⟨by decide, fun hall => ?_⟩
  have h := hall ["70000"] (by decide)
    { HostPort := 0, ContainerPort := 70000, Protocol := Protocol.TCP } (by decide)
  exact absurd h.2 (by decide)

/-- C3, amended: every binding `loadPortsFromCompose` returns has a container
port that is a signed 32-bit value, `-2^31 <= ContainerPort <= 2^31 - 1`; the
parser makes no check against the port range `0..65535`. -/
theorem C3_container_port_int32 (xs : List String) (b : Ports)
    (hb : b ∈ (loadPortsFromCompose xs).1) :
    -(2 : Int) ^ 31 ≤ b.ContainerPort ∧ b.ContainerPort ≤ 2 ^ 31 - 1 := by
  obtain ⟨x, _, hx⟩ := mem_bindings xs b hb
  rcases single_cases x with h1 | h1 | ⟨b', h1, _, hrange, _⟩
  · rw [h1] at hx; cases hx
  · rw [h1] at hx; cases hx
  · rw [h1] at hx
    have hbb : b' = b := by simpa using hx
    subst hbb
    omega

/-- Witness of C3 amended: the second binding of `"80"`, `"70000"`. -/
theorem C3_container_port_int32_witness :
    ({ HostPort := 0, ContainerPort := 70000, Protocol := Protocol.TCP } : Ports) ∈
        (loadPortsFromCompose ["80", "70000"]).1 ∧
    (-(2 : Int) ^ 31 ≤ (70000 : Int) ∧ (70000 : Int) ≤ 2 ^ 31 - 1) :=
  ⟨by decide, C3_container_port_int32 ["80", "70000"]
    { HostPort := 0, ContainerPort := 70000, Protocol := Protocol.TCP } (by decide)⟩

/-- In the two-part form the padding is trimmed: white space added around
the host side and the container side of a spec `a ++ ":" ++ b` changes
neither the bindings nor whether the parse succeeds. -/
theorem two_part_padding (a b w₁ w₂ w₃ w₄ : String) (ha : ':' ∉ a.data)
    (h₁ : ∀ x ∈ w₁.data, isSpace x = true) (h₂ : ∀ x ∈ w₂.data, isSpace x = true)
    (h₃ : ∀ x ∈ w₃.data, isSpace x = true) (h₄ : ∀ x ∈ w₄.data, isSpace x = true) :
    (loadPortsFromCompose [w₁ ++ a ++ w₂ ++ ":" ++ w₃ ++ b ++ w₄]).1 =
        (loadPortsFromCompose [a ++ ":" ++ b]).1 ∧
    ((loadPortsFromCompose [w₁ ++ a ++ w₂ ++ ":" ++ w₃ ++ b ++ w₄]).2 = "" ↔
        (loadPortsFromCompose [a ++ ":" ++ b]).2 = "") := by
  rw [single_padded a b w₁ w₂ w₃ w₄ ha h₁ h₂ h₃ h₄, single_colon _ (contains_split a b),
    sliceTo_split a b ha, sliceFrom_split a b ha]
  cases Atoi (TrimSpace a) with
  | none => simp [host_msg_ne]
  | some h =>
    cases Atoi (TrimSpace b) with
    | none => simp [container_msg_ne]
    | some c => simp

/-- C4, the code at the failing input: the container-only spec `" 3000 "` is
rejected, its text being handed to `Atoi` untrimmed, while `"3000"` parses to
container port 3000 and the two-part spec `"8080 : 80"`, whose sides are
trimmed, parses to host 8080 and container 80. -/
theorem C4_container_only_not_trimmed :
    loadPortsFromCompose ["3000"] =
      ([{ HostPort := 0, ContainerPort := 3000, Protocol := Protocol.TCP }], "") ∧
    loadPortsFromCompose [" 3000 "] = ([], "Invalid container port of  3000 ") ∧
    loadPortsFromCompose ["8080 : 80"] =
      ([{ HostPort := 8080, ContainerPort := 80, Protocol := Protocol.TCP }], "") := by
  decide

/-- C5: `loadPortsFromCompose` is fail-fast and all-or-nothing.  When at least
one spec of the list fails to parse (the parser reports an error on that spec
alone), the list yields no binding at all and a non-empty error string, and
the list splits at its first failing spec `s`, every spec before it parsing,
with the error string ending in the raw text of `s`. -/
theorem C5_fail_fast (xs : List String)
    (h : ∃ x ∈ xs, (loadPortsFromCompose [x]).2 ≠ "") :
    (loadPortsFromCompose xs).1 = [] ∧ (loadPortsFromCompose xs).2 ≠ "" ∧
    ∃ pre s post, xs = pre ++ s :: post ∧
      (∀ x ∈ pre, (loadPortsFromCompose [x]).2 = "") ∧
      (loadPortsFromCompose [s]).2 ≠ "" ∧
      ∃ m : String, (loadPortsFromCompose xs).2 = m ++ s := by
  obtain ⟨pre, s, post, rfl, hpre, hs⟩ := exists_first_fail xs h
  have hrun := loop_first_fail pre s post [] hpre hs
  rw [loadPortsFromCompose, hrun]
  refine ⟨rfl, hs, pre, s, post, rfl, hpre, hs, ?_⟩
  rcases single_cases s with h1 | h1 | ⟨b, h1, _⟩
  · exact ⟨"Invalid host port of ", by rw [h1]⟩
  · exact ⟨"Invalid container port of ", by rw [h1]⟩
  · rw [h1] at hs
    exact absurd rfl hs

/-- Witness of C5: in `"80", "abc:80", "x", "81"` the first failing spec is
`"abc:80"`. -/
theorem C5_fail_fast_witness :
    (∃ x ∈ ["80", "abc:80", "x", "81"], (loadPortsFromCompose [x]).2 ≠ "") ∧
    ((loadPortsFromCompose ["80", "abc:80", "x", "81"]).1 = [] ∧
      (loadPortsFromCompose ["80", "abc:80", "x", "81"]).2 ≠ "" ∧
      ∃ pre s post, ["80", "abc:80", "x", "81"] = pre ++ s :: post ∧
        (∀ x ∈ pre, (loadPortsFromCompose [x]).2 = "") ∧
        (loadPortsFromCompose [s]).2 ≠ "" ∧
        ∃ m : String, (loadPortsFromCompose ["80", "abc:80", "x", "81"]).2 = m ++ s) :=
  ⟨⟨"x", by decide, by decide⟩,
   C5_fail_fast ["80", "abc:80", "x", "81"] ⟨"x", by decide, by decide⟩⟩

/-- C6: host-port and container-port failures are told apart.  For a spec
`a ++ ":" ++ b` with no colon in `a` (its first colon is the one written):
when `Atoi` rejects the trimmed `a`, the error is `"Invalid host port of "`
followed by the spec; when `Atoi` accepts the trimmed `a` and rejects the
trimmed `b`, the error is `"Invalid container port of "` followed by the spec;
both with no binding.  The two messages differ for every spec.  `"abc:80"`
gives the host-port message, `"80:abc"` the container-port message. -/
theorem C6_distinguishable_errors (a b : String) (ha : ':' ∉ a.data) :
    (Atoi (TrimSpace a) = none →
      loadPortsFromCompose [a ++ ":" ++ b] = ([], "Invalid host port of " ++ (a ++ ":" ++ b))) ∧
    (∀ v : Int, Atoi (TrimSpace a) = some v → Atoi (TrimSpace b) = none →
      loadPortsFromCompose [a ++ ":" ++ b] =
        ([], "Invalid container port of " ++ (a ++ ":" ++ b))) ∧
    (∀ s : String, "Invalid host port of " ++ s ≠ "Invalid container port of " ++ s) ∧
    loadPortsFromCompose ["abc:80"] = ([], "Invalid host port of abc:80") ∧
    loadPortsFromCompose ["80:abc"] = ([], "Invalid container port of 80:abc") := by
  refine ⟨fun h => ?_, fun v hv hb => ?_, host_msg_ne_container_msg, by decide, by decide⟩
  · rw [single_colon _ (contains_split a b), sliceTo_split a b ha, h]
  · rw [single_colon _ (contains_split a b), sliceTo_split a b ha, sliceFrom_split a b ha, hv, hb]

/-- Witness of C6: the specs `"abc" ++ ":" ++ "80"` and, in the second part,
`" 80" ++ ":" ++ "abc"`. -/
theorem C6_distinguishable_errors_witness :
    (':' ∉ ("abc" : String).data ∧ Atoi (TrimSpace "abc") = none ∧
      loadPortsFromCompose ["abc" ++ ":" ++ "80"] =
        ([], "Invalid host port of " ++ ("abc" ++ ":" ++ "80"))) ∧
    (':' ∉ (" 80" : String).data ∧ Atoi (TrimSpace " 80") = some 80 ∧
      Atoi (TrimSpace "abc") = none ∧
      loadPortsFromCompose [" 80" ++ ":" ++ "abc"] =
        ([], "Invalid container port of " ++ (" 80" ++ ":" ++ "abc"))) :=
  ⟨⟨by decide, by decide, (C6_distinguishable_errors "abc" "80" (by decide)).1 (by decide)⟩,
   ⟨by decide, by decide, by decide,
    (C6_distinguishable_errors " 80" "abc" (by decide)).2.1 80 (by decide) (by decide)⟩⟩

/-- C7: a leading colon is never read as an absent host port.  For every text
`t` the spec `":" ++ t` fails: no binding, and the non-empty error is the
host-port error for that spec, whether or not `t` is a port number.  `":80"`
fails. -/
theorem C7_leading_colon (t : String) :
    loadPortsFromCompose [":" ++ t] = ([], "Invalid host port of " ++ (":" ++ t)) ∧
    (loadPortsFromCompose [":" ++ t]).1 = [] ∧
    (loadPortsFromCompose [":" ++ t]).2 ≠ "" ∧
    loadPortsFromCompose [":80"] = ([], "Invalid host port of :80") := by
  have hshape : ":" ++ t = "" ++ ":" ++ t := by
    apply String.ext
    simp [String.data_append]
  have hrun : loadPortsFromCompose [":" ++ t] = ([], "Invalid host port of " ++ (":" ++ t)) := by
    rw [hshape, single_colon _ (contains_split "" t), sliceTo_split "" t (by simp)]
    rfl
  refine ⟨hrun, by rw [hrun], ?_, by decide⟩
  rw [hrun]
  exact host_msg_ne _

/-- A spec `a ++ ":" ++ b` with at least two colons and none in `a` has a
colon in `b`, which `Atoi` rejects after trimming. -/
theorem second_colon_rejected (a b : String) (ha : ':' ∉ a.data)
    (h2 : 2 ≤ (a ++ ":" ++ b).data.count ':') : Atoi (TrimSpace b) = none := by
  apply Atoi_colon
  apply TrimSpace_keeps_colon
  simp only [String.data_append, colon_data, List.count_append,
    List.count_eq_zero_of_not_mem ha, List.count_cons_self, List.count_nil] at h2
  exact List.count_pos_iff.mp (by omega)

/-- C8: the first colon is the split point and text behind a second colon
makes the spec fail.  Every spec with at least two colons fails (no binding,
non-empty error); split at its first colon as `a ++ ":" ++ b`, when `Atoi`
accepts the trimmed `a` the failure is the container-port error, the
container text being all of `b`, later colons included.  `"8080:80:tcp"` and
`"127.0.0.1:8080:80"` fail. -/
theorem C8_second_colon (s : String) (h2 : 2 ≤ s.data.count ':') :
    (loadPortsFromCompose [s]).1 = [] ∧ (loadPortsFromCompose [s]).2 ≠ "" ∧
    (∀ a b : String, s = a ++ ":" ++ b → ':' ∉ a.data →
      ∀ v : Int, Atoi (TrimSpace a) = some v →
        loadPortsFromCompose [s] = ([], "Invalid container port of " ++ s)) ∧
    loadPortsFromCompose ["8080:80:tcp"] = ([], "Invalid container port of 8080:80:tcp") ∧
    loadPortsFromCompose ["127.0.0.1:8080:80"] =
      ([], "Invalid host port of 127.0.0.1:8080:80") := by
  have hmem : ':' ∈ s.data := List.count_pos_iff.mp (by omega)
  obtain ⟨a, b, rfl, ha⟩ := exists_split s hmem
  have hb := second_colon_rejected a b ha h2
  have hrun := single_colon _ (contains_split a b)
  rw [sliceTo_split a b ha, sliceFrom_split a b ha, hb] at hrun
  refine ⟨?_, ?_, ?_, by decide, by decide⟩
  · rw [hrun]
    cases Atoi (TrimSpace a) <;> rfl
  · rw [hrun]
    cases Atoi (TrimSpace a) with
    | none => exact host_msg_ne _
    | some v => exact container_msg_ne _
  · intro a' b' hs ha' v hv
    have hb' : Atoi (TrimSpace b') = none := second_colon_rejected a' b' ha' (hs ▸ h2)
    rw [hs, single_colon _ (contains_split a' b'), sliceTo_split a' b' ha',
      sliceFrom_split a' b' ha', hv, hb']

/-- Witness of C8: the spec `"8080:80:tcp"`, split as `"8080"` and
`"80:tcp"`. -/
theorem C8_second_colon_witness :
    2 ≤ ("8080:80:tcp" : String).data.count ':' ∧
    (loadPortsFromCompose ["8080:80:tcp"]).1 = [] ∧
    (loadPortsFromCompose ["8080:80:tcp"]).2 ≠ "" ∧
    ("8080:80:tcp" = "8080" ++ ":" ++ "80:tcp" ∧ ':' ∉ ("8080" : String).data ∧
      Atoi (TrimSpace "8080") = some 8080 ∧
      loadPortsFromCompose ["8080:80:tcp"] =
        ([], "Invalid container port of " ++ "8080:80:tcp")) :=
  ⟨by decide, (C8_second_colon "8080:80:tcp" (by decide)).1,
   (C8_second_colon "8080:80:tcp" (by decide)).2.1,
   by decide, by decide, by decide,
   (C8_second_colon "8080:80:tcp" (by decide)).2.2.1 "8080" "80:tcp" (by decide) (by decide)
     8080 (by decide)⟩

/-- C9: the protocol is always TCP.  Every binding `loadPortsFromCompose`
returns, on any input list, has protocol TCP and none has protocol UDP; the
specs `"53/udp"` and `"53:53/udp"` with a protocol suffix are rejected. -/
theorem C9_protocol_tcp (xs : List String) :
    (∀ b ∈ (loadPortsFromCompose xs).1, b.Protocol = Protocol.TCP ∧ b.Protocol ≠ Protocol.UDP) ∧
    loadPortsFromCompose ["53/udp"] = ([], "Invalid container port of 53/udp") ∧
    loadPortsFromCompose ["53:53/udp"] = ([], "Invalid container port of 53:53/udp") := by
  refine ⟨fun b hb => ?_, by decide, by decide⟩
  obtain ⟨x, _, hx⟩ := mem_bindings xs b hb
  rcases single_cases x with h1 | h1 | ⟨b', h1, hp, _⟩
  · rw [h1] at hx; cases hx
  · rw [h1] at hx; cases hx
  · rw [h1] at hx
    have hbb : b' = b := by simpa using hx
    subst hbb
    rw [hp]
    exact ⟨rfl, by decide⟩

/-- Witness of C9: the binding of `"53:53"` in the list `"53:53", "80"`. -/
theorem C9_protocol_tcp_witness :
    ({ HostPort := 53, ContainerPort := 53, Protocol := Protocol.TCP } : Ports) ∈
        (loadPortsFromCompose ["53:53", "80"]).1 ∧
    (Protocol.TCP = Protocol.TCP ∧ Protocol.TCP ≠ Protocol.UDP) :=
  ⟨by decide, (C9_protocol_tcp ["53:53", "80"]).1
    { HostPort := 53, ContainerPort := 53, Protocol := Protocol.TCP } (by decide)⟩

/-! ## Environment extraction -/

theorem loadEnvVarsLoop_eq (l : List (String × String)) (envs : List EnvVar) :
    loadEnvVarsLoop l envs = envs ++ l.map fun kv => { Name := kv.1, Value := kv.2 } := by
  induction l generalizing envs with
  | nil => simp [loadEnvVarsLoop]
  | cons kv rest ih =>
    obtain ⟨k, v⟩ := kv
    rw [loadEnvVarsLoop, ih]
    simp

theorem loadEnvVars_eq (e : GoMap) :
    loadEnvVarsfromCompose e = e.entries.map fun kv => { Name := kv.1, Value := kv.2 } := by
  rw [loadEnvVarsfromCompose, loadEnvVarsLoop_eq]
  rfl

/-- Indexing a map returns `v` for `k` exactly when `(k, v)` is one of its
entries. -/
theorem find_entry (l : List (String × String)) (hl : (l.map Prod.fst).Nodup) (k v : String) :
    (l.find? fun kv => kv.1 == k).map Prod.snd = some v ↔ (k, v) ∈ l := by
  induction l with
  | nil => simp
  | cons kv rest ih =>
    obtain ⟨k', v'⟩ := kv
    rw [List.map_cons, List.nodup_cons] at hl
    rw [List.find?_cons]
    by_cases hk : k' = k
    · subst hk
      have hnot : (k', v) ∉ rest := fun hmem => hl.1 (List.mem_map.mpr ⟨(k', v), hmem, rfl⟩)
      simp [hnot, eq_comm]
    · have hbeq : (k' == k) = false := by simpa using hk
      simp only [hbeq, List.mem_cons, Prod.mk.injEq]
      rw [ih hl.2]
      constructor
      · exact fun h => Or.inr h
      · rintro (⟨h, _⟩ | h)
        · exact absurd h.symm hk
        · exact h

theorem GoMap.get_eq_some (e : GoMap) (k v : String) : e.get k = some v ↔ (k, v) ∈ e.entries :=
  find_entry e.entries e.nodup k v

/-- C10: `loadEnvVarsfromCompose` yields exactly one entry per key of the
mapping `e`.  The result has as many entries as `e` has keys; every key `k`
with `e[k] = v` is the `Name` of exactly one entry, and an entry named `k` has
`Value = v`; every entry is named by a key of `e` and carries the value of
that key; the name/value pairs of the result are a permutation of the
key/value pairs of `e`; the empty mapping yields the empty sequence. -/
theorem C10_one_entry_per_key (e : GoMap) :
    (loadEnvVarsfromCompose e).length = e.len ∧
    (∀ k v : String, e.get k = some v →
      (loadEnvVarsfromCompose e).countP (fun x => x.Name == k) = 1 ∧
      ({ Name := k, Value := v } : EnvVar) ∈ loadEnvVarsfromCompose e ∧
      ∀ x ∈ loadEnvVarsfromCompose e, x.Name = k → x.Value = v) ∧
    (∀ x ∈ loadEnvVarsfromCompose e, e.get x.Name = some x.Value) ∧
    List.Perm ((loadEnvVarsfromCompose e).map fun x => (x.Name, x.Value)) e.entries ∧
    loadEnvVarsfromCompose { entries := [], nodup := List.nodup_nil } = [] := by
  have hall : ∀ x ∈ loadEnvVarsfromCompose e, e.get x.Name = some x.Value := by
    intro x hx
    rw [loadEnvVars_eq, List.mem_map] at hx
    obtain ⟨⟨k, v⟩, hkv, rfl⟩ := hx
    exact (e.get_eq_some k v).mpr hkv
  refine ⟨?_, ?_, hall, ?_, rfl⟩
  · rw [loadEnvVars_eq, List.length_map, GoMap.len]
  · intro k v hkv
    have hmem := (e.get_eq_some k v).mp hkv
    refine ⟨?_, ?_, ?_⟩
    · have hcount : (e.entries.map Prod.fst).count k = 1 :=
        List.count_eq_one_of_mem e.nodup (List.mem_map.mpr ⟨(k, v), hmem, rfl⟩)
      rw [loadEnvVars_eq, List.countP_map]
      rw [List.count, List.countP_map] at hcount
      exact hcount
    · rw [loadEnvVars_eq]
      exact List.mem_map.mpr ⟨(k, v), hmem, rfl⟩
    · intro x hx hname
      have h1 := hall x hx
      rw [hname, hkv] at h1
      exact (Option.some.inj h1).symm
  · rw [loadEnvVars_eq, List.map_map]
    have hid : ((fun x : EnvVar => (x.Name, x.Value)) ∘
        fun kv : String × String => ({ Name := kv.1, Value := kv.2 } : EnvVar)) = id := by
      funext kv
      rfl
    rw [hid, List.map_id]

/-- Witness of C10: the mapping `{"A": "1", "B": "2"}` at its key `"B"`. -/
theorem C10_one_entry_per_key_witness :
    GoMap.get { entries := [("A", "1"), ("B", "2")], nodup := by decide } "B" = some "2" ∧
    ((loadEnvVarsfromCompose { entries := [("A", "1"), ("B", "2")], nodup := by decide }).countP
        (fun x => x.Name == "B") = 1 ∧
      ({ Name := "B", Value := "2" } : EnvVar) ∈
        loadEnvVarsfromCompose { entries := [("A", "1"), ("B", "2")], nodup := by decide } ∧
      ∀ x ∈ loadEnvVarsfromCompose { entries := [("A", "1"), ("B", "2")], nodup := by decide },
        x.Name = "B" → x.Value = "2") :=
  ⟨by decide,
   (C10_one_entry_per_key { entries := [("A", "1"), ("B", "2")], nodup := by decide }).2.1
     "B" "2" (by decide)⟩


/-! ## Maps as lists of pairs -/

/-- Looking a key up in a list of pairs with distinct keys returns `v` exactly
when `(k, v)` is one of the pairs. -/
theorem find_pair {α : Type} (l : List (String × α)) (hl : (l.map Prod.fst).Nodup) (k : String)
    (v : α) : (l.find? fun kv => kv.1 == k).map Prod.snd = some v ↔ (k, v) ∈ l := by
  induction l with
  | nil => simp
  | cons kv rest ih =>
    obtain ⟨k', v'⟩ := kv
    rw [List.map_cons, List.nodup_cons] at hl
    rw [List.find?_cons]
    by_cases hk : k' = k
    · subst hk
      have hnot : (k', v) ∉ rest := fun hmem => hl.1 (List.mem_map.mpr ⟨(k', v), hmem, rfl⟩)
      simp [hnot, eq_comm]
    · have hbeq : (k' == k) = false := by simpa using hk
      simp only [hbeq, List.mem_cons, Prod.mk.injEq]
      rw [ih hl.2]
      constructor
      · exact fun h => Or.inr h
      · rintro (⟨h, _⟩ | h)
        · exact absurd h.symm hk
        · exact h

theorem Get_eq_some (c : config.ServiceConfigs) (name : String) (s : config.ServiceConfig) :
    c.Get name = some s ↔ (name, s) ∈ c.entries :=
  find_pair c.entries c.nodup name s

theorem Get_of_mem_Keys (c : config.ServiceConfigs) (name : String) (h : name ∈ c.Keys) :
    ∃ s, c.Get name = some s := by
  rw [config.ServiceConfigs.Keys, List.mem_map] at h
  obtain ⟨⟨k, s⟩, hmem, rfl⟩ := h
  exact ⟨s, (Get_eq_some c k s).mpr hmem⟩

theorem mem_Keys_of_Get (c : config.ServiceConfigs) (name : String) (s : config.ServiceConfig)
    (h : c.Get name = some s) : name ∈ c.Keys :=
  List.mem_map.mpr ⟨(name, s), (Get_eq_some c name s).mp h, rfl⟩

theorem mapGet_mapSet_self (m : List (String × kobject.ServiceConfig)) (k : String)
    (v : kobject.ServiceConfig) : mapGet (mapSet m k v) k = some v := by
  induction m with
  | nil => simp [mapSet, mapGet]
  | cons kv rest ih =>
    obtain ⟨k', v'⟩ := kv
    by_cases hk : k' = k
    · simp [mapSet, mapGet, hk]
    · have hbeq : (k' == k) = false := by simpa using hk
      unfold mapGet at ih
      simp [mapSet, mapGet, hbeq, List.find?_cons, ih]

theorem mapGet_mapSet_ne (m : List (String × kobject.ServiceConfig)) (k k₀ : String)
    (v : kobject.ServiceConfig) (hne : k₀ ≠ k) : mapGet (mapSet m k v) k₀ = mapGet m k₀ := by
  induction m with
  | nil =>
    have hbeq : (k == k₀) = false := by simpa using fun h => hne h.symm
    simp [mapSet, mapGet, List.find?_cons, hbeq]
  | cons kv rest ih =>
    obtain ⟨k', v'⟩ := kv
    unfold mapGet at ih
    by_cases hk : k' = k
    · have hbeq : (k' == k₀) = false := by simpa [hk] using fun h => hne h.symm
      simp [mapSet, mapGet, hk, List.find?_cons, hbeq]
      rw [hk] at hbeq
      simp [hbeq]
    · have hbeq : (k' == k) = false := by simpa using hk
      simp only [mapSet, hbeq, mapGet, List.find?_cons, Bool.false_eq_true, if_false]
      cases hk0 : (k' == k₀) with
      | true => rfl
      | false => exact ih

theorem keys_mapSet_new (m : List (String × kobject.ServiceConfig)) (k : String)
    (v : kobject.ServiceConfig) (hk : k ∉ m.map Prod.fst) : mapSet m k v = m ++ [(k, v)] := by
  induction m with
  | nil => rfl
  | cons kv rest ih =>
    obtain ⟨k', v'⟩ := kv
    simp only [List.map_cons, List.mem_cons, not_or] at hk
    have hbeq : (k' == k) = false := by simpa using fun h => hk.1 h.symm
    simp [mapSet, hbeq, ih hk.2]

/-! ## The service loop -/

theorem networksCondition_eq_none (c : config.ServiceConfig) :
    networksCondition c = none ↔ c.Networks = none := by
  unfold networksCondition
  cases hn : c.Networks with
  | none => simp
  | some l => cases l <;> simp

theorem networksCondition_eq_true (c : config.ServiceConfig) :
    networksCondition c = some true ↔
      ∃ first rest, c.Networks = some (first :: rest) ∧ first.Name ≠ "default" := by
  unfold networksCondition
  cases hn : c.Networks with
  | none => simp
  | some l => cases l <;> simp

/-- One step of the service loop on a name that `Get` does not find. -/
theorem serviceLoop_skip (p : project.Project) (name : String) (rest : List String)
    (m : List (String × kobject.ServiceConfig)) (found : Bool) (w : List String)
    (h : p.ServiceConfigs.Get name = none) :
    serviceLoop p (name :: rest) m found w = serviceLoop p rest m found w := by
  simp only [serviceLoop, h]

/-- One step of the service loop on a service whose `Networks` pointer is
nil: the run panics. -/
theorem serviceLoop_panic (p : project.Project) (name : String) (rest : List String)
    (m : List (String × kobject.ServiceConfig)) (found : Bool) (w : List String)
    (c : config.ServiceConfig) (h : p.ServiceConfigs.Get name = some c)
    (hn : networksCondition c = none) :
    serviceLoop p (name :: rest) m found w = Outcome.panicked w := by
  simp only [serviceLoop, h, hn]

/-- One step of the service loop on a service whose ports do not parse. -/
theorem serviceLoop_fail (p : project.Project) (name : String) (rest : List String)
    (m : List (String × kobject.ServiceConfig)) (found : Bool) (w : List String)
    (c : config.ServiceConfig) (h : p.ServiceConfigs.Get name = some c) (b : Bool)
    (hn : networksCondition c = some b) (hp : (loadPortsFromCompose c.Ports).2 ≠ "") :
    serviceLoop p (name :: rest) m found w =
      Outcome.fatal ("Failed to load ports from compose file: " ++ (loadPortsFromCompose c.Ports).2)
        (if (b && !found) = true then
          w ++ ["Unsupported key networks - ignoring"] else w) := by
  simp only [serviceLoop, h, hn, hp, ne_eq, not_false_eq_true, if_true]

/-- One step of the service loop on a service whose ports parse. -/
theorem serviceLoop_ok (p : project.Project) (name : String) (rest : List String)
    (m : List (String × kobject.ServiceConfig)) (found : Bool) (w : List String)
    (c : config.ServiceConfig) (h : p.ServiceConfigs.Get name = some c) (b : Bool)
    (hn : networksCondition c = some b) (hp : (loadPortsFromCompose c.Ports).2 = "") :
    serviceLoop p (name :: rest) m found w =
      serviceLoop p rest (mapSet m name (assembleServiceConfig c (loadPortsFromCompose c.Ports).1))
        (if (b && !found) = true then true else found)
        (if (b && !found) = true then
          w ++ ["Unsupported key networks - ignoring"] else w) := by
  simp only [serviceLoop, h, hn, hp, ne_eq, not_true_eq_false, if_false]

/-- The loop returns exactly when every service it visits has its `Networks`
pointer set and ports that parse. -/
theorem serviceLoop_returns (p : project.Project) (names : List String)
    (m : List (String × kobject.ServiceConfig)) (found : Bool) (w : List String) :
    (serviceLoop p names m found w).model.isSome = true ↔
      ∀ name ∈ names, ∀ c, p.ServiceConfigs.Get name = some c →
        c.Networks ≠ none ∧ (loadPortsFromCompose c.Ports).2 = "" := by
  induction names generalizing m found w with
  | nil => simp [serviceLoop, Outcome.model]
  | cons name rest ih =>
    cases hget : p.ServiceConfigs.Get name with
    | none =>
      rw [serviceLoop_skip p name rest m found w hget, ih]
      constructor
      · intro h n hn c hc
        rcases List.mem_cons.mp hn with rfl | hn
        · rw [hget] at hc
          cases hc
        · exact h n hn c hc
      · exact fun h n hn c hc => h n (List.mem_cons_of_mem _ hn) c hc
    | some c =>
      cases hcond : networksCondition c with
      | none =>
        rw [serviceLoop_panic p name rest m found w c hget hcond]
        simp only [Outcome.model, Option.isSome_none, Bool.false_eq_true, false_iff]
        intro h
        exact (h name (List.mem_cons_self _ _) c hget).1 ((networksCondition_eq_none c).mp hcond)
      | some b =>
        have hset : c.Networks ≠ none := by
          intro hnil
          rw [(networksCondition_eq_none c).mpr hnil] at hcond
          cases hcond
        by_cases hp : (loadPortsFromCompose c.Ports).2 = ""
        · rw [serviceLoop_ok p name rest m found w c hget b hcond hp, ih]
          constructor
          · intro h n hn c' hc
            rcases List.mem_cons.mp hn with rfl | hn
            · rw [hget] at hc
              cases hc
              exact ⟨hset, hp⟩
            · exact h n hn c' hc
          · exact fun h n hn c' hc => h n (List.mem_cons_of_mem _ hn) c' hc
        · rw [serviceLoop_fail p name rest m found w c hget b hcond hp]
          simp only [Outcome.model, Option.isSome_none, Bool.false_eq_true, false_iff]
          intro h
          exact hp (h name (List.mem_cons_self _ _) c hget).2

/-- When every service the loop visits has its `Networks` pointer set, the
loop is ended by `Fatalf` exactly when the ports of one of them do not parse,
and it never panics. -/
theorem serviceLoop_isFatal (p : project.Project) (names : List String)
    (hset : ∀ name ∈ names, ∀ c, p.ServiceConfigs.Get name = some c → c.Networks ≠ none)
    (m : List (String × kobject.ServiceConfig)) (found : Bool) (w : List String) :
    ((serviceLoop p names m found w).isFatal = true ↔
      ∃ name ∈ names, ∃ c, p.ServiceConfigs.Get name = some c ∧
        (loadPortsFromCompose c.Ports).2 ≠ "") ∧
    (serviceLoop p names m found w).isPanic = false := by
  induction names generalizing m found w with
  | nil => simp [serviceLoop, Outcome.isFatal, Outcome.isPanic]
  | cons name rest ih =>
    have hrest : ∀ n ∈ rest, ∀ c, p.ServiceConfigs.Get n = some c → c.Networks ≠ none :=
      fun n hn c hc => hset n (List.mem_cons_of_mem _ hn) c hc
    cases hget : p.ServiceConfigs.Get name with
    | none =>
      rw [serviceLoop_skip p name rest m found w hget]
      refine ⟨?_, (ih hrest m found w).2⟩
      rw [(ih hrest m found w).1]
      constructor
      · rintro ⟨n, hn, c, hc, hf⟩
        exact ⟨n, List.mem_cons_of_mem _ hn, c, hc, hf⟩
      · rintro ⟨n, hn, c, hc, hf⟩
        rcases List.mem_cons.mp hn with rfl | hn
        · rw [hget] at hc
          cases hc
        · exact ⟨n, hn, c, hc, hf⟩
    | some c =>
      cases hcond : networksCondition c with
      | none =>
        exact absurd ((networksCondition_eq_none c).mp hcond)
          (hset name (List.mem_cons_self _ _) c hget)
      | some b =>
        by_cases hp : (loadPortsFromCompose c.Ports).2 = ""
        · rw [serviceLoop_ok p name rest m found w c hget b hcond hp]
          refine ⟨?_, (ih hrest _ _ _).2⟩
          rw [(ih hrest _ _ _).1]
          constructor
          · rintro ⟨n, hn, c', hc, hf⟩
            exact ⟨n, List.mem_cons_of_mem _ hn, c', hc, hf⟩
          · rintro ⟨n, hn, c', hc, hf⟩
            rcases List.mem_cons.mp hn with rfl | hn
            · rw [hget] at hc
              cases hc
              exact absurd hp hf
            · exact ⟨n, hn, c', hc, hf⟩
        · rw [serviceLoop_fail p name rest m found w c hget b hcond hp]
          simp only [Outcome.isFatal, Outcome.isPanic, true_iff, and_true]
          exact ⟨name, List.mem_cons_self _ _, c, hget, hp⟩

/-- What the returned map holds under a key: the record assembled from the
service of that name if the loop visited it, else what the map held before. -/
theorem serviceLoop_get (p : project.Project) (names : List String)
    (m : List (String × kobject.ServiceConfig)) (found : Bool) (w : List String)
    (o : kobject.KomposeObject) (w' : List String)
    (h : serviceLoop p names m found w = Outcome.returned o w') (k : String) :
    o.get k =
      match (if k ∈ names then p.ServiceConfigs.Get k else none) with
      | some c => some (assembleServiceConfig c (loadPortsFromCompose c.Ports).1)
      | none => mapGet m k := by
  induction names generalizing m found w with
  | nil =>
    simp only [serviceLoop, Outcome.returned.injEq] at h
    rw [← h.1]
    simp [kobject.KomposeObject.get]
  | cons name rest ih =>
    cases hget : p.ServiceConfigs.Get name with
    | none =>
      rw [serviceLoop_skip p name rest m found w hget] at h
      rw [ih m found w h]
      by_cases hk : k = name
      · subst hk
        simp [hget]
      · simp [hk]
    | some c =>
      cases hcond : networksCondition c with
      | none =>
        rw [serviceLoop_panic p name rest m found w c hget hcond] at h
        cases h
      | some b =>
        by_cases hp : (loadPortsFromCompose c.Ports).2 = ""
        · rw [serviceLoop_ok p name rest m found w c hget b hcond hp] at h
          rw [ih _ _ _ h]
          by_cases hk : k = name
          · subst hk
            by_cases hmem : k ∈ rest
            · simp [hmem, hget]
            · simp [hmem, hget, mapGet_mapSet_self]
          · simp only [List.mem_cons, hk, false_or]
            rw [mapGet_mapSet_ne _ _ _ _ hk]
        · rw [serviceLoop_fail p name rest m found w c hget b hcond hp] at h
          cases h

/-- The keys of the returned map, when the loop visits distinct names of
services, none of them a key of the map before. -/
theorem serviceLoop_keys (p : project.Project) (names : List String)
    (m : List (String × kobject.ServiceConfig)) (found : Bool) (w : List String)
    (o : kobject.KomposeObject) (w' : List String)
    (h : serviceLoop p names m found w = Outcome.returned o w')
    (hnd : names.Nodup) (hnew : ∀ n ∈ names, n ∉ m.map Prod.fst)
    (hget : ∀ n ∈ names, ∃ c, p.ServiceConfigs.Get n = some c) :
    o.keys = m.map Prod.fst ++ names := by
  induction names generalizing m found w with
  | nil =>
    simp only [serviceLoop, Outcome.returned.injEq] at h
    rw [← h.1]
    simp [kobject.KomposeObject.keys]
  | cons name rest ih =>
    obtain ⟨c, hc⟩ := hget name (List.mem_cons_self _ _)
    rw [List.nodup_cons] at hnd
    cases hcond : networksCondition c with
    | none =>
      rw [serviceLoop_panic p name rest m found w c hc hcond] at h
      cases h
    | some b =>
      by_cases hp : (loadPortsFromCompose c.Ports).2 = ""
      · rw [serviceLoop_ok p name rest m found w c hc b hcond hp] at h
        have hset := keys_mapSet_new m name
          (assembleServiceConfig c (loadPortsFromCompose c.Ports).1)
          (hnew name (List.mem_cons_self _ _))
        rw [ih _ _ _ h hnd.2 ?_ (fun n hn => hget n (List.mem_cons_of_mem _ hn)), hset]
        · simp
        · intro n hn
          rw [hset]
          simp only [List.map_append, List.map_cons, List.map_nil, List.mem_append,
            List.mem_singleton, not_or]
          refine ⟨hnew n (List.mem_cons_of_mem _ hn), ?_⟩
          rintro rfl
          exact hnd.1 hn
      · rw [serviceLoop_fail p name rest m found w c hc b hcond hp] at h
        cases h

/-- The warnings of the loop, however it ends: those logged before it,
followed by at most one networks warning, which is there only if the flag
was not set. -/
theorem serviceLoop_warnings (p : project.Project) (names : List String)
    (m : List (String × kobject.ServiceConfig)) (found : Bool) (w : List String) :
    (serviceLoop p names m found w).warnings = w ∨
    (found = false ∧
      (serviceLoop p names m found w).warnings = w ++ ["Unsupported key networks - ignoring"]) := by
  induction names generalizing m found w with
  | nil => exact Or.inl rfl
  | cons name rest ih =>
    cases hget : p.ServiceConfigs.Get name with
    | none =>
      rw [serviceLoop_skip p name rest m found w hget]
      exact ih m found w
    | some c =>
      cases hcond : networksCondition c with
      | none =>
        rw [serviceLoop_panic p name rest m found w c hget hcond]
        exact Or.inl rfl
      | some b =>
        have hfound : (b && !found) = true → found = false := by
          intro hwarn
          cases found
          · rfl
          · simp at hwarn
        by_cases hp : (loadPortsFromCompose c.Ports).2 = ""
        · rw [serviceLoop_ok p name rest m found w c hget b hcond hp]
          by_cases hwarn : (b && !found) = true
          · simp only [hwarn, if_true]
            rcases ih (mapSet m name (assembleServiceConfig c (loadPortsFromCompose c.Ports).1))
                true (w ++ ["Unsupported key networks - ignoring"]) with h1 | ⟨h1, _⟩
            · exact Or.inr ⟨hfound hwarn, h1⟩
            · cases h1
          · simp only [hwarn, if_false, Bool.false_eq_true]
            exact ih _ found w
        · rw [serviceLoop_fail p name rest m found w c hget b hcond hp]
          by_cases hwarn : (b && !found) = true
          · rw [if_pos hwarn]
            exact Or.inr ⟨hfound hwarn, rfl⟩
          · rw [if_neg hwarn]
            exact Or.inl rfl

/-- The warnings of a loop that returns: one networks warning behind those
logged before, if the flag was not set and some visited service has a first
network entry that is not named `default`; nothing more otherwise. -/
theorem serviceLoop_returned_warnings (p : project.Project) (names : List String)
    (m : List (String × kobject.ServiceConfig)) (found : Bool) (w : List String)
    (o : kobject.KomposeObject) (w' : List String)
    (h : serviceLoop p names m found w = Outcome.returned o w') :
    w' = if found = false ∧
          (names.any fun n =>
            (p.ServiceConfigs.Get n).any fun c => networksCondition c == some true) = true then
        w ++ ["Unsupported key networks - ignoring"] else w := by
  induction names generalizing m found w with
  | nil =>
    simp only [serviceLoop, Outcome.returned.injEq] at h
    simp [h.2]
  | cons name rest ih =>
    cases hget : p.ServiceConfigs.Get name with
    | none =>
      rw [serviceLoop_skip p name rest m found w hget] at h
      rw [ih m found w h]
      simp [hget]
    | some c =>
      cases hcond : networksCondition c with
      | none =>
        rw [serviceLoop_panic p name rest m found w c hget hcond] at h
        cases h
      | some b =>
        by_cases hp : (loadPortsFromCompose c.Ports).2 = ""
        · rw [serviceLoop_ok p name rest m found w c hget b hcond hp] at h
          rw [ih _ _ _ h]
          cases found <;> cases b <;> simp [hget, hcond]
        · rw [serviceLoop_fail p name rest m found w c hget b hcond hp] at h
          cases h

/-! ## The claims about `LoadCompose` -/

theorem translate_eq (p : project.Project) :
    translate p =
      serviceLoop p p.ServiceConfigs.Keys [] false
        ((if p.NetworkConfigs.length > 0 then
            ["Unsupported network configuration of compose v2 - ignoring"] else []) ++
          (if p.VolumeConfigs.length > 0 then
            ["Unsupported volume configuration of compose v2 - ignoring"] else [])) := by
  unfold translate
  by_cases hn : p.NetworkConfigs.length > 0 <;> by_cases hv : p.VolumeConfigs.length > 0 <;>
    simp [hn, hv]

/-- The record that a returning run stores under the name of a service. -/
theorem translate_get (p : project.Project) (o : kobject.KomposeObject) (w : List String)
    (h : translate p = Outcome.returned o w) (name : String) (c : config.ServiceConfig)
    (hc : p.ServiceConfigs.Get name = some c) :
    o.get name = some (assembleServiceConfig c (loadPortsFromCompose c.Ports).1) := by
  rw [translate_eq] at h
  rw [serviceLoop_get p _ _ _ _ o w h name,
    if_pos (mem_Keys_of_Get p.ServiceConfigs name c hc), hc]

/-- The keys of the map that a returning run returns are the names that
`Keys()` lists. -/
theorem translate_keys (p : project.Project) (o : kobject.KomposeObject) (w : List String)
    (h : translate p = Outcome.returned o w) : o.keys = p.ServiceConfigs.Keys := by
  rw [translate_eq] at h
  rw [serviceLoop_keys p _ _ _ _ o w h p.ServiceConfigs.nodup (by simp)
    (fun n hn => Get_of_mem_Keys p.ServiceConfigs n hn)]
  simp

/-- Every record of a returning run is the one assembled from the service of
its name. -/
theorem translate_get_inv (p : project.Project) (o : kobject.KomposeObject) (w : List String)
    (h : translate p = Outcome.returned o w) (name : String) (r : kobject.ServiceConfig)
    (hr : o.get name = some r) :
    ∃ c, p.ServiceConfigs.Get name = some c ∧
      r = assembleServiceConfig c (loadPortsFromCompose c.Ports).1 := by
  rw [translate_eq] at h
  rw [serviceLoop_get p _ _ _ _ o w h name] at hr
  by_cases hmem : name ∈ p.ServiceConfigs.Keys
  · obtain ⟨c, hc⟩ := Get_of_mem_Keys p.ServiceConfigs name hmem
    rw [if_pos hmem, hc] at hr
    exact ⟨c, hc, (Option.some.inj hr).symm⟩
  · rw [if_neg hmem] at hr
    simp [mapGet] at hr

/-- The translation returns exactly when every service has its `Networks`
pointer set and ports that parse. -/
theorem translate_returns (p : project.Project) :
    (translate p).model.isSome = true ↔
      ∀ (name : String) (c : config.ServiceConfig), p.ServiceConfigs.Get name = some c →
        c.Networks ≠ none ∧ (loadPortsFromCompose c.Ports).2 = "" := by
  rw [translate_eq, serviceLoop_returns]
  constructor
  · exact fun h name c hc => h name (mem_Keys_of_Get p.ServiceConfigs name c hc) c hc
  · exact fun h name _ c hc => h name c hc

/-- When every service has its `Networks` pointer set, the translation is
ended by `Fatalf` exactly when the ports of one of the services do not parse,
and it does not panic. -/
theorem translate_isFatal (p : project.Project)
    (hset : ∀ (name : String) (c : config.ServiceConfig),
      p.ServiceConfigs.Get name = some c → c.Networks ≠ none) :
    ((translate p).isFatal = true ↔
      ∃ (name : String) (c : config.ServiceConfig), p.ServiceConfigs.Get name = some c ∧
        (loadPortsFromCompose c.Ports).2 ≠ "") ∧
    (translate p).isPanic = false := by
  rw [translate_eq]
  have h := serviceLoop_isFatal p p.ServiceConfigs.Keys (fun name _ c hc => hset name c hc)
    [] false
    ((if p.NetworkConfigs.length > 0 then
        ["Unsupported network configuration of compose v2 - ignoring"] else []) ++
      (if p.VolumeConfigs.length > 0 then
        ["Unsupported volume configuration of compose v2 - ignoring"] else []))
  refine ⟨?_, h.2⟩
  rw [h.1]
  constructor
  · rintro ⟨name, _, c, hc, hf⟩
    exact ⟨name, c, hc, hf⟩
  · rintro ⟨name, c, hc, hf⟩
    exact ⟨name, mem_Keys_of_Get p.ServiceConfigs name c hc, c, hc, hf⟩

/-- C11: service names are preserved as keys.  When the translation of a
parsed project returns, the keys of the returned `ServiceConfigs` are exactly
the service names of the project (the same names, each once, as many keys as
services), and the record stored under a name is the one assembled from the
service definition of that name. -/
theorem C11_service_names_preserved (p : project.Project) (o : kobject.KomposeObject)
    (w : List String) (h : translate p = Outcome.returned o w) :
    (∀ name : String, name ∈ o.keys ↔ name ∈ p.ServiceConfigs.Keys) ∧
    o.keys.Nodup ∧ o.keys.length = p.ServiceConfigs.entries.length ∧
    (∀ (name : String) (c : config.ServiceConfig), p.ServiceConfigs.Get name = some c →
      o.get name = some (assembleServiceConfig c (loadPortsFromCompose c.Ports).1)) ∧
    (∀ (name : String) (r : kobject.ServiceConfig), o.get name = some r →
      ∃ c, p.ServiceConfigs.Get name = some c ∧
        r = assembleServiceConfig c (loadPortsFromCompose c.Ports).1) := by
  have hkeys : o.keys = p.ServiceConfigs.Keys := translate_keys p o w h
  refine ⟨fun name => by rw [hkeys], by rw [hkeys]; exact p.ServiceConfigs.nodup, ?_,
    fun name c hc => translate_get p o w h name c hc,
    fun name r hr => translate_get_inv p o w h name r hr⟩
  rw [hkeys, config.ServiceConfigs.Keys, List.length_map]

/-- Witness of C11: the project `twoServices` yields exactly the two keys
`web` and `db`. -/
theorem C11_service_names_preserved_witness :
    translate twoServices =
      Outcome.returned
        { ServiceConfigs :=
            [("web", { Image := "nginx",
                       Port := [{ HostPort := 8080, ContainerPort := 80, Protocol := Protocol.TCP }] }),
             ("db", { Image := "postgres",
                      Port := [{ HostPort := 0, ContainerPort := 5432, Protocol := Protocol.TCP }] })] }
        [] ∧
    ((∀ name : String, name ∈ ["web", "db"] ↔ name ∈ twoServices.ServiceConfigs.Keys) ∧
      ["web", "db"].Nodup ∧ ["web", "db"].length = twoServices.ServiceConfigs.entries.length) :=
  ⟨rfl,
   have h := C11_service_names_preserved twoServices
      { ServiceConfigs :=
          [("web", { Image := "nginx",
                     Port := [{ HostPort := 8080, ContainerPort := 80, Protocol := Protocol.TCP }] }),
           ("db", { Image := "postgres",
                    Port := [{ HostPort := 0, ContainerPort := 5432, Protocol := Protocol.TCP }] })] }
      [] rfl
   ⟨h.1, h.2.1, h.2.2.1⟩⟩

/-- With the working directory resolved and `Parse()` failing, `LoadCompose`
is ended by `Fatalf`. -/
theorem LoadCompose_parse_failed (cwd : String)
    (parse : String → String → Option project.Project) (file : String)
    (h : parse (if file == "" then "docker-compose.yml" else file) cwd = none) :
    LoadCompose (some cwd) parse file = Outcome.fatal "Failed to load compose file" [] := by
  show (match parse (if file == "" then "docker-compose.yml" else file) cwd with
    | none => Outcome.fatal "Failed to load compose file" []
    | some composeObject => translate composeObject) = _
  rw [h]

/-- With the working directory resolved and `Parse()` returning a project,
`LoadCompose` is the translation of that project. -/
theorem LoadCompose_parsed (cwd : String)
    (parse : String → String → Option project.Project) (file : String) (p : project.Project)
    (h : parse (if file == "" then "docker-compose.yml" else file) cwd = some p) :
    LoadCompose (some cwd) parse file = translate p := by
  show (match parse (if file == "" then "docker-compose.yml" else file) cwd with
    | none => Outcome.fatal "Failed to load compose file" []
    | some composeObject => translate composeObject) = _
  rw [h]

/-- On parsed projects in which every service has its `Networks` pointer set,
and with the working directory resolved, `LoadCompose` is ended by `Fatalf`
exactly when `Parse()` failed or the ports of one of the services do not
parse, and a run that returns gives every record the bindings of its
service. -/
theorem abort_iff_of_networks_set (cwd : String)
    (parse : String → String → Option project.Project) (file : String)
    (hset : ∀ p, parse (if file == "" then "docker-compose.yml" else file) cwd = some p →
      ∀ (name : String) (c : config.ServiceConfig),
        p.ServiceConfigs.Get name = some c → c.Networks ≠ none) :
    ((LoadCompose (some cwd) parse file).isFatal = true ↔
      (parse (if file == "" then "docker-compose.yml" else file) cwd = none ∨
        ∃ p, parse (if file == "" then "docker-compose.yml" else file) cwd = some p ∧
          ∃ (name : String) (c : config.ServiceConfig), p.ServiceConfigs.Get name = some c ∧
            (loadPortsFromCompose c.Ports).2 ≠ "")) ∧
    (∀ (p : project.Project) (o : kobject.KomposeObject) (w : List String),
      parse (if file == "" then "docker-compose.yml" else file) cwd = some p →
      LoadCompose (some cwd) parse file = Outcome.returned o w →
      ∀ (name : String) (c : config.ServiceConfig), p.ServiceConfigs.Get name = some c →
        ∃ r, o.get name = some r ∧ r.Port = (loadPortsFromCompose c.Ports).1) := by
  refine ⟨?_, ?_⟩
  · cases hparse : parse (if file == "" then "docker-compose.yml" else file) cwd with
    | none =>
      rw [LoadCompose_parse_failed cwd parse file hparse]
      simp [Outcome.isFatal]
    | some p =>
      rw [LoadCompose_parsed cwd parse file p hparse, (translate_isFatal p (hset p hparse)).1]
      simp
  · intro p o w hparse hrun name c hc
    have hrun' : translate p = Outcome.returned o w := by
      rw [← LoadCompose_parsed cwd parse file p hparse]
      exact hrun
    exact ⟨_, translate_get p o w hrun' name c hc, rfl⟩

/-- C12, the code on a service whose `Networks` pointer is nil.  The project
`hostMode` is parsed and its one port spec `"80"` parses, yet the run neither
returns nor reaches `Fatalf`: it panics at the condition of the networks
warning.  The project `hostModeBadPort` has a port spec on which
`loadPortsFromCompose` returns an error, yet the run is not ended by `Fatalf`
either: it panics before the ports are read.  With the pointer set
(`bridgeMode`) the run returns the record of `web`. -/
theorem C12_nil_networks_panic :
    hostMode.ServiceConfigs.Get "web" =
      some { Image := "nginx", Ports := ["80"], Networks := none } ∧
    (loadPortsFromCompose ["80"]).2 = "" ∧
    translate hostMode = Outcome.panicked [] ∧
    LoadCompose (some "/app") (fun _ _ => some hostMode) "" = Outcome.panicked [] ∧
    (LoadCompose (some "/app") (fun _ _ => some hostMode) "").isFatal = false ∧
    (LoadCompose (some "/app") (fun _ _ => some hostMode) "").model = none ∧
    hostModeBadPort.ServiceConfigs.Get "web" =
      some { Image := "nginx", Ports := ["x"], Networks := none } ∧
    (loadPortsFromCompose ["x"]).2 ≠ "" ∧
    LoadCompose (some "/app") (fun _ _ => some hostModeBadPort) "" = Outcome.panicked [] ∧
    (LoadCompose (some "/app") (fun _ _ => some hostModeBadPort) "").isFatal = false ∧
    ((LoadCompose (some "/app") (fun _ _ => some bridgeMode) "").model.map fun o => o.keys) =
      some ["web"] :=
  ⟨rfl, by decide, rfl, rfl, rfl, rfl, rfl, by decide, rfl, rfl, rfl⟩

/-- C13: the assembly of a Service Record is a direct field copy.  In a run
that returns, the record `r` stored for a service definition `s` has the
`Image`, `ContainerName`, `WorkingDir`, `Volumes`, `CapAdd`, `CapDrop`,
`Expose`, `Privileged`, `Restart`, `User`, `CPUSet`, `CPUShares` and
`CPUQuota` of `s`, and its `Annotations` are the `Labels` of `s`, the same
keys with the same values. -/
theorem C13_field_copy (p : project.Project) (o : kobject.KomposeObject) (w : List String)
    (h : translate p = Outcome.returned o w) (name : String) (s : config.ServiceConfig)
    (hs : p.ServiceConfigs.Get name = some s) :
    ∃ r, o.get name = some r ∧
      r.Image = s.Image ∧ r.ContainerName = s.ContainerName ∧ r.WorkingDir = s.WorkingDir ∧
      r.Volumes = s.Volumes ∧ r.CapAdd = s.CapAdd ∧ r.CapDrop = s.CapDrop ∧
      r.Expose = s.Expose ∧ r.Privileged = s.Privileged ∧ r.Restart = s.Restart ∧
      r.User = s.User ∧ r.CPUSet = s.CPUSet ∧ r.CPUShares = s.CPUShares ∧
      r.CPUQuota = s.CPUQuota ∧ r.Annotations = s.Labels ∧
      (∀ k : String, r.Annotations.get k = s.Labels.get k) :=
  ⟨_, translate_get p o w h name s hs, rfl, rfl, rfl, rfl, rfl, rfl, rfl, rfl, rfl, rfl, rfl,
    rfl, rfl, rfl, fun _ => rfl⟩

/-- Witness of C13: in the project `labelled` the labels `env=prod` of the
service `api` are its annotations, with its other fields copied. -/
theorem C13_field_copy_witness :
    (∃ o w, translate labelled = Outcome.returned o w ∧
      ∃ s, labelled.ServiceConfigs.Get "api" = some s ∧
        ∃ r, o.get "api" = some r ∧ r.Image = "api:1" ∧ r.WorkingDir = "/srv" ∧
          r.Volumes = ["/data:/data"] ∧ r.CPUShares = 512 ∧ r.Privileged = true ∧
          r.Annotations.entries = [("env", "prod")]) ∧
    (∃ o w, translate labelled = Outcome.returned o w ∧
      ∃ s, labelled.ServiceConfigs.Get "job" = some s ∧
        ∃ r, o.get "job" = some r ∧ r.Annotations.entries = []) :=
  ⟨⟨_, _, rfl, _, rfl,
      match C13_field_copy labelled _ _ rfl "api" _ rfl with
      | ⟨r, hr, h1, _, h3, h4, _, _, _, h8, _, _, _, h12, _, h14, _⟩ =>
        ⟨r, hr, h1, h3, h4, h12, h8, by rw [h14]⟩⟩,
   ⟨_, _, rfl, _, rfl,
      match C13_field_copy labelled _ _ rfl "job" _ rfl with
      | ⟨r, hr, _, _, _, _, _, _, _, _, _, _, _, _, _, h14, _⟩ => ⟨r, hr, by rw [h14]⟩⟩⟩

/-- C14: the project-level warnings are emitted once per feature area, not
per service.  In the warnings of one run on a parsed project, the message
`Unsupported network configuration of compose v2 - ignoring` occurs exactly
once if the project declares at least one network and not at all otherwise,
and `Unsupported volume configuration of compose v2 - ignoring` occurs
exactly once if the project declares at least one named volume and not at
all otherwise, whatever the services of the project are. -/
theorem C14_project_level_warnings (p : project.Project) :
    (translate p).warnings.count "Unsupported network configuration of compose v2 - ignoring" =
      (if p.NetworkConfigs.length > 0 then 1 else 0) ∧
    (translate p).warnings.count "Unsupported volume configuration of compose v2 - ignoring" =
      (if p.VolumeConfigs.length > 0 then 1 else 0) := by
  rw [translate_eq]
  rcases serviceLoop_warnings p p.ServiceConfigs.Keys [] false
      ((if p.NetworkConfigs.length > 0 then
          ["Unsupported network configuration of compose v2 - ignoring"] else []) ++
        (if p.VolumeConfigs.length > 0 then
          ["Unsupported volume configuration of compose v2 - ignoring"] else [])) with h | ⟨_, h⟩ <;>
    rw [h] <;>
    by_cases hn : p.NetworkConfigs.length > 0 <;>
    by_cases hv : p.VolumeConfigs.length > 0 <;>
    simp only [hn, hv, if_true, if_false] <;> decide

theorem any_networksCondition_iff (p : project.Project) :
    (p.ServiceConfigs.Keys.any fun n =>
        (p.ServiceConfigs.Get n).any fun c => networksCondition c == some true) = true ↔
      ∃ (name : String) (c : config.ServiceConfig) (first : yaml.Network)
        (rest : List yaml.Network),
        p.ServiceConfigs.Get name = some c ∧ c.Networks = some (first :: rest) ∧
          first.Name ≠ "default" := by
  rw [List.any_eq_true]
  constructor
  · rintro ⟨name, _, hany⟩
    cases hget : p.ServiceConfigs.Get name with
    | none => simp [hget] at hany
    | some c =>
      rw [hget] at hany
      have hc : networksCondition c = some true := by simpa using hany
      obtain ⟨first, rest, h1, h2⟩ := (networksCondition_eq_true c).mp hc
      exact ⟨name, c, first, rest, hget, h1, h2⟩
  · rintro ⟨name, c, first, rest, hget, h1, h2⟩
    refine ⟨name, mem_Keys_of_Get p.ServiceConfigs name c hget, ?_⟩
    rw [hget]
    simpa using (networksCondition_eq_true c).mpr ⟨first, rest, h1, h2⟩

/-- C15, as stated, fails: the one service of the project `defaultFirst` lists
the network `front`, not named `default`, behind the entry `default`; the run
returns and emits no `Unsupported key networks - ignoring` warning. -/
theorem C15_counterexample :
    (translate defaultFirst).model.isSome = true ∧
    (translate defaultFirst).isFatal = false ∧
    (∃ c, defaultFirst.ServiceConfigs.Get "web" = some c ∧
      c.Networks = some [{ Name := "default" }, { Name := "front" }] ∧
      ({ Name := "front" } : yaml.Network).Name ≠ "default") ∧
    (translate defaultFirst).warnings.count "Unsupported key networks - ignoring" = 0 := by
  refine ⟨by decide, by decide, ⟨_, rfl, rfl, by decide⟩, by decide⟩

/-- C15, amended: the per-service networks warning is triggered by the first
entry of a network list and is emitted once per run.  In a run that returns,
the message `Unsupported key networks - ignoring` is emitted exactly once if
at least one service has a network list that is not empty and whose first
entry is not named `default`, and not at all if no service has such a list;
it is never emitted more than once. -/
theorem C15_networks_warning_first_entry (p : project.Project) (o : kobject.KomposeObject)
    (w : List String) (h : translate p = Outcome.returned o w) :
    ((∃ (name : String) (c : config.ServiceConfig) (first : yaml.Network)
        (rest : List yaml.Network),
        p.ServiceConfigs.Get name = some c ∧ c.Networks = some (first :: rest) ∧
          first.Name ≠ "default") →
      w.count "Unsupported key networks - ignoring" = 1) ∧
    ((¬ ∃ (name : String) (c : config.ServiceConfig) (first : yaml.Network)
        (rest : List yaml.Network),
        p.ServiceConfigs.Get name = some c ∧ c.Networks = some (first :: rest) ∧
          first.Name ≠ "default") →
      w.count "Unsupported key networks - ignoring" = 0) ∧
    w.count "Unsupported key networks - ignoring" ≤ 1 := by
  rw [translate_eq] at h
  have hw := serviceLoop_returned_warnings p _ _ _ _ o w h
  rw [← any_networksCondition_iff]
  by_cases hany :
      (p.ServiceConfigs.Keys.any fun n =>
        (p.ServiceConfigs.Get n).any fun c => networksCondition c == some true) = true
  · rw [if_pos ⟨rfl, hany⟩] at hw
    have hcount : w.count "Unsupported key networks - ignoring" = 1 := by
      rw [hw]
      by_cases hn : p.NetworkConfigs.length > 0 <;>
        by_cases hv : p.VolumeConfigs.length > 0 <;>
        simp only [hn, hv, if_true, if_false] <;> decide
    exact ⟨fun _ => hcount, fun hno => absurd hany hno, by omega⟩
  · rw [if_neg (fun hc => hany hc.2)] at hw
    have hcount : w.count "Unsupported key networks - ignoring" = 0 := by
      rw [hw]
      by_cases hn : p.NetworkConfigs.length > 0 <;>
        by_cases hv : p.VolumeConfigs.length > 0 <;>
        simp only [hn, hv, if_true, if_false] <;> decide
    exact ⟨fun hyes => absurd hyes hany, fun _ => hcount, by omega⟩

/-- Witness of C15 amended: both services of `frontFirst` list `front` first,
and the run emits the networks warning once, behind the project-level
warning. -/
theorem C15_networks_warning_first_entry_witness :
    (translate frontFirst).warnings =
      ["Unsupported network configuration of compose v2 - ignoring",
       "Unsupported key networks - ignoring"] ∧
    (∃ (name : String) (c : config.ServiceConfig) (first : yaml.Network)
        (rest : List yaml.Network),
        frontFirst.ServiceConfigs.Get name = some c ∧ c.Networks = some (first :: rest) ∧
          first.Name ≠ "default") ∧
    (["Unsupported network configuration of compose v2 - ignoring",
      "Unsupported key networks - ignoring"].count "Unsupported key networks - ignoring" = 1) :=
  ⟨rfl, ⟨"db", _, { Name := "front" }, [{ Name := "default" }], rfl, rfl, by decide⟩,
   (C15_networks_warning_first_entry frontFirst _ _ rfl).1
     ⟨"db", _, { Name := "front" }, [{ Name := "default" }], rfl, rfl, by decide⟩⟩

/-! ## Two runs side by side -/

/-- Looking a key up after `f` was applied to the values is `f` of what the
lookup returns. -/
theorem find_map {α β : Type} (f : α → β) (l : List (String × α)) (k : String) :
    ((l.map fun kv => (kv.1, f kv.2)).find? fun kv => kv.1 == k).map Prod.snd =
      ((l.find? fun kv => kv.1 == k).map Prod.snd).map f := by
  induction l with
  | nil => rfl
  | cons a l ih =>
    simp only [List.map_cons, List.find?_cons]
    cases hak : (a.1 == k) with
    | true => rfl
    | false => exact ih

/-- Two lists of pairs with distinct keys that hold the same pairs, in any
order, give the same answer to every lookup. -/
theorem find_perm {β : Type} (l₁ l₂ : List (String × β)) (hnd : (l₁.map Prod.fst).Nodup)
    (hperm : l₁.Perm l₂) (k : String) :
    (l₁.find? fun kv => kv.1 == k).map Prod.snd = (l₂.find? fun kv => kv.1 == k).map Prod.snd := by
  have hnd₂ : (l₂.map Prod.fst).Nodup := (hperm.map Prod.fst).nodup_iff.mp hnd
  apply Option.ext
  intro v
  rw [Option.mem_def, Option.mem_def, find_pair l₁ hnd k v, find_pair l₂ hnd₂ k v]
  exact hperm.mem_iff

theorem keys_map {α β : Type} (f : α → β) (l : List (String × α)) :
    (l.map fun kv => (kv.1, f kv.2)).map Prod.fst = l.map Prod.fst := by
  simp [List.map_map, Function.comp]

/-- Two service maps that hold the same services up to `f`, listed in any
order, give the same answer, up to `f`, to every `Get`. -/
theorem Get_congr (f : config.ServiceConfig → config.ServiceConfig)
    (c₁ c₂ : config.ServiceConfigs)
    (h : (c₁.entries.map fun kv => (kv.1, f kv.2)).Perm
      (c₂.entries.map fun kv => (kv.1, f kv.2))) (name : String) :
    (c₁.Get name).map f = (c₂.Get name).map f := by
  unfold config.ServiceConfigs.Get
  rw [← find_map f c₁.entries name, ← find_map f c₂.entries name]
  apply find_perm _ _ _ h
  rw [keys_map]
  exact c₁.nodup

theorem Keys_perm (f : config.ServiceConfig → config.ServiceConfig)
    (c₁ c₂ : config.ServiceConfigs)
    (h : (c₁.entries.map fun kv => (kv.1, f kv.2)).Perm
      (c₂.entries.map fun kv => (kv.1, f kv.2))) : c₁.Keys.Perm c₂.Keys := by
  have := h.map Prod.fst
  rwa [keys_map, keys_map] at this

/-- From a service of one map to the service of the same name in a map that
answers every `Get` alike up to `f`. -/
theorem Get_transfer (f : config.ServiceConfig → config.ServiceConfig)
    (c₁ c₂ : config.ServiceConfigs)
    (hrel : ∀ name, (c₁.Get name).map f = (c₂.Get name).map f) (name : String)
    (a : config.ServiceConfig) (ha : c₁.Get name = some a) :
    ∃ b, c₂.Get name = some b ∧ f a = f b := by
  have hn := hrel name
  rw [ha] at hn
  cases hb : c₂.Get name with
  | none => simp [hb] at hn
  | some b =>
    rw [hb] at hn
    exact ⟨b, rfl, by simpa using hn⟩

theorem isFatal_eq_format (o : Outcome) : o.isFatal = o.format.isSome := by
  cases o <;> rfl

/-- Two service definitions that agree but for their network lists and
their environment have the same ports, and are assembled into records that
agree but for their environment. -/
theorem assemble_congr (a b : config.ServiceConfig)
    (h : withoutNetworks (withoutEnvironment a) = withoutNetworks (withoutEnvironment b)) :
    a.Ports = b.Ports ∧
      ∀ ports, assembleServiceConfig b ports =
        { assembleServiceConfig a ports with
          Environment := loadEnvVarsfromCompose b.Environment } := by
  cases a
  cases b
  simp only [withoutNetworks, withoutEnvironment, config.ServiceConfig.mk.injEq] at h
  simp [assembleServiceConfig, h]

/-- Two service definitions that agree but for their environment have the
same network list. -/
theorem networks_congr (a b : config.ServiceConfig)
    (h : withoutEnvironment a = withoutEnvironment b) :
    a.Networks = b.Networks ∧ a.Ports = b.Ports ∧
      networksCondition a = networksCondition b ∧
      withoutNetworks (withoutEnvironment a) = withoutNetworks (withoutEnvironment b) := by
  cases a
  cases b
  simp only [withoutEnvironment, config.ServiceConfig.mk.injEq] at h
  simp [networksCondition, withoutNetworks, withoutEnvironment, h]

/-- The records of two returning runs on projects that hold the same
services up to their network lists and the order of their environment maps:
under every name, records that agree but for `Environment`, the two
`Environment` sequences being permutations of one another, and equal when
the two environment maps are visited in the same order. -/
theorem records_congr (p q : project.Project)
    (hrel : ∀ name,
      (p.ServiceConfigs.Get name).map (fun c => withoutNetworks (withoutEnvironment c)) =
        (q.ServiceConfigs.Get name).map (fun c => withoutNetworks (withoutEnvironment c)))
    (henv : ∀ (name : String) (a b : config.ServiceConfig),
      p.ServiceConfigs.Get name = some a → q.ServiceConfigs.Get name = some b →
      a.Environment.entries.Perm b.Environment.entries)
    (o₁ o₂ : kobject.KomposeObject) (w₁ w₂ : List String)
    (h₁ : translate p = Outcome.returned o₁ w₁) (h₂ : translate q = Outcome.returned o₂ w₂)
    (name : String) (r₁ : kobject.ServiceConfig) (hr₁ : o₁.get name = some r₁) :
    ∃ r₂, o₂.get name = some r₂ ∧
      r₂ = { r₁ with Environment := r₂.Environment } ∧ r₁.Port = r₂.Port ∧
      r₁.Environment.Perm r₂.Environment ∧
      (∀ a b : config.ServiceConfig, p.ServiceConfigs.Get name = some a →
        q.ServiceConfigs.Get name = some b → a.Environment = b.Environment → r₂ = r₁) := by
  obtain ⟨a, ha, hra⟩ := translate_get_inv p o₁ w₁ h₁ name r₁ hr₁
  obtain ⟨b, hb, hab⟩ := Get_transfer _ p.ServiceConfigs q.ServiceConfigs hrel name a ha
  obtain ⟨hports, hrec⟩ := assemble_congr a b hab
  refine ⟨_, translate_get q o₂ w₂ h₂ name b hb, ?_, ?_, ?_, ?_⟩
  · rw [hra, ← hports, hrec]
  · rw [hra, ← hports]
    rfl
  · rw [hra]
    show (loadEnvVarsfromCompose a.Environment).Perm (loadEnvVarsfromCompose b.Environment)
    rw [loadEnvVars_eq, loadEnvVars_eq]
    exact (henv name a b ha hb).map _
  · intro a' b' ha' hb' hsame
    rw [ha] at ha'
    rw [hb] at hb'
    cases ha'
    cases hb'
    rw [hra, ← hports, hrec, ← hsame]
    rfl

/-- Whether a run returns does not depend on the order in which the services
are listed, nor on their environment. -/
theorem returns_congr (p q : project.Project)
    (hrel : ∀ name, (p.ServiceConfigs.Get name).map withoutEnvironment =
      (q.ServiceConfigs.Get name).map withoutEnvironment) :
    (translate p).model.isSome = true → (translate q).model.isSome = true := by
  rw [translate_returns, translate_returns]
  intro h name b hb
  obtain ⟨a, ha, hba⟩ := Get_transfer withoutEnvironment q.ServiceConfigs p.ServiceConfigs
    (fun n => (hrel n).symm) name b hb
  obtain ⟨hnet, hports, _, _⟩ := networks_congr b a hba
  rw [hnet, hports]
  exact h name a ha

/-- The end of the loop (the format string of `Fatalf`, if any, whether it
panicked, and the warnings) does not depend on the environment of the
services nor on the map built so far. -/
theorem serviceLoop_log_congr (p q : project.Project)
    (hrel : ∀ n, (p.ServiceConfigs.Get n).map withoutEnvironment =
      (q.ServiceConfigs.Get n).map withoutEnvironment)
    (names : List String) (m₁ m₂ : List (String × kobject.ServiceConfig)) (f : Bool)
    (w : List String) :
    (serviceLoop p names m₁ f w).format = (serviceLoop q names m₂ f w).format ∧
    (serviceLoop p names m₁ f w).isPanic = (serviceLoop q names m₂ f w).isPanic ∧
    (serviceLoop p names m₁ f w).warnings = (serviceLoop q names m₂ f w).warnings := by
  induction names generalizing m₁ m₂ f w with
  | nil => exact ⟨rfl, rfl, rfl⟩
  | cons name rest ih =>
    cases hp : p.ServiceConfigs.Get name with
    | none =>
      cases hq : q.ServiceConfigs.Get name with
      | none =>
        rw [serviceLoop_skip p name rest m₁ f w hp, serviceLoop_skip q name rest m₂ f w hq]
        exact ih m₁ m₂ f w
      | some b =>
        have hn := hrel name
        simp [hp, hq] at hn
    | some a =>
      obtain ⟨b, hq, hab⟩ := Get_transfer withoutEnvironment p.ServiceConfigs q.ServiceConfigs
        hrel name a hp
      obtain ⟨_, hports, hcond, _⟩ := networks_congr a b hab
      cases hca : networksCondition a with
      | none =>
        rw [serviceLoop_panic p name rest m₁ f w a hp hca,
          serviceLoop_panic q name rest m₂ f w b hq (hcond ▸ hca)]
        exact ⟨rfl, rfl, rfl⟩
      | some c =>
        by_cases hok : (loadPortsFromCompose a.Ports).2 = ""
        · rw [serviceLoop_ok p name rest m₁ f w a hp c hca hok,
            serviceLoop_ok q name rest m₂ f w b hq c (hcond ▸ hca) (hports ▸ hok)]
          exact ih _ _ _ _
        · rw [serviceLoop_fail p name rest m₁ f w a hp c hca hok,
            serviceLoop_fail q name rest m₂ f w b hq c (hcond ▸ hca) (hports ▸ hok), hports]
          exact ⟨rfl, rfl, rfl⟩

/-- Whether some service triggers the networks warning does not depend on
the order in which the services are listed, nor on their environment. -/
theorem any_networksCondition_congr (p q : project.Project)
    (hrel : ∀ name, (p.ServiceConfigs.Get name).map withoutEnvironment =
      (q.ServiceConfigs.Get name).map withoutEnvironment) :
    (p.ServiceConfigs.Keys.any fun n =>
        (p.ServiceConfigs.Get n).any fun c => networksCondition c == some true) =
      (q.ServiceConfigs.Keys.any fun n =>
        (q.ServiceConfigs.Get n).any fun c => networksCondition c == some true) := by
  rw [Bool.eq_iff_iff, any_networksCondition_iff, any_networksCondition_iff]
  constructor
  · rintro ⟨name, a, first, rest, ha, hnet, hne⟩
    obtain ⟨b, hb, hab⟩ := Get_transfer withoutEnvironment p.ServiceConfigs q.ServiceConfigs
      hrel name a ha
    exact ⟨name, b, first, rest, hb, (networks_congr a b hab).1 ▸ hnet, hne⟩
  · rintro ⟨name, b, first, rest, hb, hnet, hne⟩
    obtain ⟨a, ha, hba⟩ := Get_transfer withoutEnvironment q.ServiceConfigs p.ServiceConfigs
      (fun n => (hrel n).symm) name b hb
    exact ⟨name, a, first, rest, ha, (networks_congr b a hba).1 ▸ hnet, hne⟩

/-- C16, as stated, fails, in two ways.  The projects `hostMode` and
`bridgeMode` have the same service `web`, in definitions that are identical
but for the network list (a nil pointer in the first), and the first run
panics where the second returns.  The projects `envAB` and `envBAVolumes`
have the same service `web` with the same environment map `A=1`, `B=2`, and
differ in their `VolumeConfigs`; the map is visited in the order `A`, `B` in
one run and `B`, `A` in the other, neither run is ended by `Fatalf`, and the
two returned objects are not equal. -/
theorem C16_counterexample :
    (hostMode.ServiceConfigs.entries.map (fun kv => (kv.1, withoutNetworks kv.2)) =
      bridgeMode.ServiceConfigs.entries.map (fun kv => (kv.1, withoutNetworks kv.2))) ∧
    translate hostMode = Outcome.panicked [] ∧
    (translate hostMode).isFatal = false ∧ (translate bridgeMode).isFatal = false ∧
    (translate hostMode).model = none ∧ (translate bridgeMode).model.isSome = true ∧
    (envAB.ServiceConfigs.entries.map
        (fun kv => (kv.1, withoutNetworks (withoutEnvironment kv.2))) =
      envBAVolumes.ServiceConfigs.entries.map
        (fun kv => (kv.1, withoutNetworks (withoutEnvironment kv.2)))) ∧
    (∀ k : String,
      GoMap.get { entries := [("A", "1"), ("B", "2")], nodup := by decide } k =
        GoMap.get { entries := [("B", "2"), ("A", "1")], nodup := by decide } k) ∧
    (translate envAB).isFatal = false ∧ (translate envBAVolumes).isFatal = false ∧
    (translate envAB).model ≠ (translate envBAVolumes).model := by
  refine ⟨rfl, rfl, rfl, rfl, rfl, rfl, rfl, ?_, rfl, rfl, ?_⟩
  · intro k
    simp only [GoMap.get, List.find?_cons, List.find?_nil]
    by_cases hA : k = "A"
    · subst hA
      decide
    · by_cases hB : k = "B"
      · subst hB
        decide
      · have h1 : ("A" == k) = false := by simpa using fun h => hA h.symm
        have h2 : ("B" == k) = false := by simpa using fun h => hB h.symm
        simp [h1, h2]
  · intro h
    have h2 := congrArg
      (fun m : Option kobject.KomposeObject =>
        (m.bind fun o => o.get "web").map fun r => r.Environment) h
    have h3 : some [({ Name := "A", Value := "1" } : EnvVar), { Name := "B", Value := "2" }] =
        some [{ Name := "B", Value := "2" }, { Name := "A", Value := "1" }] := h2
    exact absurd h3 (by decide)

/-- C16, amended: warnings are observational only.  Take two parsed projects
with the same services, listed in any order, in definitions that are
identical but for their network lists, the environment maps holding the same
pairs in whatever order they are visited, every `Networks` pointer set, and
with any project-level `NetworkConfigs` and `VolumeConfigs` each.  Neither
run panics, one run is ended by `Fatalf` if and only if the other is, and
otherwise both return; the two returned objects have the same keys and,
under each key, records that are equal in every field but `Environment`,
whose two sequences are permutations of one another, and that are equal
when the environment map of that service is visited in the same order in
both runs. -/
theorem C16_warnings_noninterference (p q : project.Project)
    (hsame :
      (p.ServiceConfigs.entries.map
        fun kv => (kv.1, withoutNetworks (withoutEnvironment kv.2))).Perm
      (q.ServiceConfigs.entries.map
        fun kv => (kv.1, withoutNetworks (withoutEnvironment kv.2))))
    (henv : ∀ (name : String) (a b : config.ServiceConfig),
      p.ServiceConfigs.Get name = some a → q.ServiceConfigs.Get name = some b →
      a.Environment.entries.Perm b.Environment.entries)
    (hp : ∀ (name : String) (c : config.ServiceConfig),
      p.ServiceConfigs.Get name = some c → c.Networks ≠ none)
    (hq : ∀ (name : String) (c : config.ServiceConfig),
      q.ServiceConfigs.Get name = some c → c.Networks ≠ none) :
    ((translate p).isFatal = true ↔ (translate q).isFatal = true) ∧
    (translate p).isPanic = false ∧ (translate q).isPanic = false ∧
    ((translate p).model.isSome = true ↔ (translate q).model.isSome = true) ∧
    (∀ (o₁ o₂ : kobject.KomposeObject) (w₁ w₂ : List String),
      translate p = Outcome.returned o₁ w₁ → translate q = Outcome.returned o₂ w₂ →
      o₁.keys.Perm o₂.keys ∧
      ∀ (name : String) (r₁ : kobject.ServiceConfig), o₁.get name = some r₁ →
        ∃ r₂, o₂.get name = some r₂ ∧
          r₂ = { r₁ with Environment := r₂.Environment } ∧ r₁.Port = r₂.Port ∧
          r₁.Environment.Perm r₂.Environment ∧
          (∀ a b : config.ServiceConfig, p.ServiceConfigs.Get name = some a →
            q.ServiceConfigs.Get name = some b → a.Environment = b.Environment →
            r₂ = r₁)) := by
  have hrel := Get_congr (fun c => withoutNetworks (withoutEnvironment c))
    p.ServiceConfigs q.ServiceConfigs hsame
  have hports : (∃ (name : String) (c : config.ServiceConfig),
        p.ServiceConfigs.Get name = some c ∧ (loadPortsFromCompose c.Ports).2 ≠ "") ↔
      ∃ (name : String) (c : config.ServiceConfig),
        q.ServiceConfigs.Get name = some c ∧ (loadPortsFromCompose c.Ports).2 ≠ "" := by
    constructor
    · rintro ⟨name, a, ha, hf⟩
      obtain ⟨b, hb, hab⟩ := Get_transfer _ p.ServiceConfigs q.ServiceConfigs hrel name a ha
      exact ⟨name, b, hb, (assemble_congr a b hab).1 ▸ hf⟩
    · rintro ⟨name, b, hb, hf⟩
      obtain ⟨a, ha, hba⟩ := Get_transfer _ q.ServiceConfigs p.ServiceConfigs
        (fun n => (hrel n).symm) name b hb
      exact ⟨name, a, ha, (assemble_congr b a hba).1 ▸ hf⟩
  refine ⟨?_, (translate_isFatal p hp).2, (translate_isFatal q hq).2, ?_, ?_⟩
  · rw [(translate_isFatal p hp).1, (translate_isFatal q hq).1]
    exact hports
  · rw [translate_returns, translate_returns]
    constructor
    · intro h name b hb
      refine ⟨hq name b hb, ?_⟩
      by_contra hf
      obtain ⟨n, a, ha, hfa⟩ := hports.mpr ⟨name, b, hb, hf⟩
      exact hfa (h n a ha).2
    · intro h name a ha
      refine ⟨hp name a ha, ?_⟩
      by_contra hf
      obtain ⟨n, b, hb, hfb⟩ := hports.mp ⟨name, a, ha, hf⟩
      exact hfb (h n b hb).2
  · intro o₁ o₂ w₁ w₂ h₁ h₂
    refine ⟨?_, records_congr p q hrel henv o₁ o₂ w₁ w₂ h₁ h₂⟩
    rw [translate_keys p o₁ w₁ h₁, translate_keys q o₂ w₂ h₂]
    exact Keys_perm (fun c => withoutNetworks (withoutEnvironment c))
      p.ServiceConfigs q.ServiceConfigs hsame

/-- Witness of C16 amended: `frontFirst` and `frontFirstNoNetworks` list
their services in different orders and differ in their network lists,
networks and volumes, and in their warnings; both runs return, with the same
keys. -/
theorem C16_warnings_noninterference_witness :
    (translate frontFirst).warnings ≠ (translate frontFirstNoNetworks).warnings ∧
    ((translate frontFirst).isFatal = true ↔ (translate frontFirstNoNetworks).isFatal = true) ∧
    (∃ o₁ o₂ w₁ w₂, translate frontFirst = Outcome.returned o₁ w₁ ∧
      translate frontFirstNoNetworks = Outcome.returned o₂ w₂ ∧ o₁.keys.Perm o₂.keys) :=
  have hsame :
      (frontFirst.ServiceConfigs.entries.map
        fun kv => (kv.1, withoutNetworks (withoutEnvironment kv.2))).Perm
      (frontFirstNoNetworks.ServiceConfigs.entries.map
        fun kv => (kv.1, withoutNetworks (withoutEnvironment kv.2))) :=
    List.Perm.swap _ _ []
  have henv : ∀ (name : String) (a b : config.ServiceConfig),
      frontFirst.ServiceConfigs.Get name = some a →
      frontFirstNoNetworks.ServiceConfigs.Get name = some b →
      a.Environment.entries.Perm b.Environment.entries := by
    intro name a b ha hb
    have ha' := (Get_eq_some frontFirst.ServiceConfigs name a).mp ha
    have hb' := (Get_eq_some frontFirstNoNetworks.ServiceConfigs name b).mp hb
    simp only [frontFirst, List.mem_cons, Prod.mk.injEq, List.mem_singleton, List.not_mem_nil,
      or_false] at ha'
    simp only [frontFirstNoNetworks, List.mem_cons, Prod.mk.injEq, List.mem_singleton,
      List.not_mem_nil, or_false] at hb'
    rcases ha' with ⟨_, rfl⟩ | ⟨_, rfl⟩ <;> rcases hb' with ⟨_, rfl⟩ | ⟨_, rfl⟩ <;>
      exact List.Perm.refl _
  have hp : ∀ (name : String) (c : config.ServiceConfig),
      frontFirst.ServiceConfigs.Get name = some c → c.Networks ≠ none := by
    intro name c hc
    have hc' := (Get_eq_some frontFirst.ServiceConfigs name c).mp hc
    simp only [frontFirst, List.mem_cons, Prod.mk.injEq, List.mem_singleton, List.not_mem_nil,
      or_false] at hc'
    rcases hc' with ⟨_, rfl⟩ | ⟨_, rfl⟩ <;> simp
  have hq : ∀ (name : String) (c : config.ServiceConfig),
      frontFirstNoNetworks.ServiceConfigs.Get name = some c → c.Networks ≠ none := by
    intro name c hc
    have hc' := (Get_eq_some frontFirstNoNetworks.ServiceConfigs name c).mp hc
    simp only [frontFirstNoNetworks, List.mem_cons, Prod.mk.injEq, List.mem_singleton,
      List.not_mem_nil, or_false] at hc'
    rcases hc' with ⟨_, rfl⟩ | ⟨_, rfl⟩ <;> simp [defaultNetworks]
  have h := C16_warnings_noninterference frontFirst frontFirstNoNetworks hsame henv hp hq
  ⟨by decide, h.1, _, _, _, _, rfl, rfl, (h.2.2.2.2 _ _ _ _ rfl rfl).1⟩

/-- C17, as stated, fails, in two ways.  `envAB` and `envBA` are one and the
same parsed project, the service `web` with the environment map `A=1`, `B=2`,
and differ only in the order in which the `range` over that map visits its
two keys, an order Go does not fix from one run to the next: the two runs
return records whose `Environment` sequences are `A, B` and `B, A`, so the
two Kompose objects are not equal.  `badPortsAB` and `badPortsBA` are one and
the same parsed project, and differ only in the order in which `Keys()`
lists the two services: both runs are ended by `Fatalf`, with different
messages and after different warnings. -/
theorem C17_counterexample :
    (envAB.ServiceConfigs.entries.map (fun kv => (kv.1, withoutEnvironment kv.2)) =
      envBA.ServiceConfigs.entries.map (fun kv => (kv.1, withoutEnvironment kv.2))) ∧
    (∀ k : String,
      GoMap.get { entries := [("A", "1"), ("B", "2")], nodup := by decide } k =
        GoMap.get { entries := [("B", "2"), ("A", "1")], nodup := by decide } k) ∧
    (((translate envAB).model.bind fun o => o.get "web").map fun r => r.Environment) =
      some [{ Name := "A", Value := "1" }, { Name := "B", Value := "2" }] ∧
    (((translate envBA).model.bind fun o => o.get "web").map fun r => r.Environment) =
      some [{ Name := "B", Value := "2" }, { Name := "A", Value := "1" }] ∧
    (translate envAB).model ≠ (translate envBA).model ∧
    (badPortsAB.ServiceConfigs.entries.Perm badPortsBA.ServiceConfigs.entries) ∧
    translate badPortsAB =
      Outcome.fatal "Failed to load ports from compose file: Invalid container port of x"
        ["Unsupported key networks - ignoring"] ∧
    translate badPortsBA =
      Outcome.fatal "Failed to load ports from compose file: Invalid container port of y" [] ∧
    (translate badPortsAB).format ≠ (translate badPortsBA).format ∧
    (translate badPortsAB).warnings ≠ (translate badPortsBA).warnings := by
  refine ⟨rfl, ?_, rfl, rfl, ?_, List.Perm.swap _ _ [], rfl, rfl, by decide, by decide⟩
  · intro k
    simp only [GoMap.get, List.find?_cons, List.find?_nil]
    by_cases hA : k = "A"
    · subst hA
      decide
    · by_cases hB : k = "B"
      · subst hB
        decide
      · have h1 : ("A" == k) = false := by simpa using fun h => hA h.symm
        have h2 : ("B" == k) = false := by simpa using fun h => hB h.symm
        simp [h1, h2]
  · intro h
    have h2 := congrArg
      (fun m : Option kobject.KomposeObject =>
        (m.bind fun o => o.get "web").map fun r => r.Environment) h
    have h3 : some [({ Name := "A", Value := "1" } : EnvVar), { Name := "B", Value := "2" }] =
        some [{ Name := "B", Value := "2" }, { Name := "A", Value := "1" }] := h2
    exact absurd h3 (by decide)

/-- C17, amended: translation is deterministic up to the orders that Go
leaves open.  Take two runs on the same parsed project: the same services
with the same definitions, listed by `Keys()` in whatever order, the
environment maps holding the same pairs in whatever order they are visited,
as many project-level networks and volumes.  Both runs return or neither
does.  When both return, they emit the same warnings, the two objects have
the same keys, and under each key records that are equal in every field but
`Environment`, with equal `Port` sequences, and whose `Environment`
sequences are permutations of one another.  When no `Networks` pointer is
nil, one run is ended by `Fatalf` if and only if the other is, and neither
panics.  When the two runs list the services in the same order, they end
alike: ended by `Fatalf` with the same format string, or by a panic, or
returning, with the same warnings.  A run takes nothing from an earlier run:
it starts from the empty map, its own project-level warnings and
`networksWarningFound = false`; a loop on `frontFirst` that started from a
flag left set would log other warnings than the run on `frontFirst` does. -/
theorem C17_deterministic_up_to_order (p q : project.Project)
    (hsame :
      (p.ServiceConfigs.entries.map fun kv => (kv.1, withoutEnvironment kv.2)).Perm
      (q.ServiceConfigs.entries.map fun kv => (kv.1, withoutEnvironment kv.2)))
    (henv : ∀ (name : String) (a b : config.ServiceConfig),
      p.ServiceConfigs.Get name = some a → q.ServiceConfigs.Get name = some b →
      a.Environment.entries.Perm b.Environment.entries)
    (hnet : p.NetworkConfigs.length = q.NetworkConfigs.length)
    (hvol : p.VolumeConfigs.length = q.VolumeConfigs.length) :
    ((translate p).model.isSome = true ↔ (translate q).model.isSome = true) ∧
    (∀ (o₁ o₂ : kobject.KomposeObject) (w₁ w₂ : List String),
      translate p = Outcome.returned o₁ w₁ → translate q = Outcome.returned o₂ w₂ →
      w₁ = w₂ ∧ o₁.keys.Perm o₂.keys ∧
      ∀ (name : String) (r₁ : kobject.ServiceConfig), o₁.get name = some r₁ →
        ∃ r₂, o₂.get name = some r₂ ∧
          r₂ = { r₁ with Environment := r₂.Environment } ∧ r₁.Port = r₂.Port ∧
          r₁.Environment.Perm r₂.Environment) ∧
    ((∀ (name : String) (c : config.ServiceConfig),
        p.ServiceConfigs.Get name = some c → c.Networks ≠ none) →
      ((translate p).isFatal = true ↔ (translate q).isFatal = true) ∧
      (translate p).isPanic = false ∧ (translate q).isPanic = false) ∧
    (p.ServiceConfigs.Keys = q.ServiceConfigs.Keys →
      (translate p).format = (translate q).format ∧
      ((translate p).isFatal = true ↔ (translate q).isFatal = true) ∧
      (translate p).isPanic = (translate q).isPanic ∧
      (translate p).warnings = (translate q).warnings) ∧
    translate q =
      serviceLoop q q.ServiceConfigs.Keys [] false
        ((if q.NetworkConfigs.length > 0 then
            ["Unsupported network configuration of compose v2 - ignoring"] else []) ++
          (if q.VolumeConfigs.length > 0 then
            ["Unsupported volume configuration of compose v2 - ignoring"] else [])) ∧
    (translate frontFirst).warnings ≠
      (serviceLoop frontFirst frontFirst.ServiceConfigs.Keys [] true
        ["Unsupported network configuration of compose v2 - ignoring"]).warnings := by
  have hrel := Get_congr withoutEnvironment p.ServiceConfigs q.ServiceConfigs hsame
  have hrel' : ∀ name,
      (p.ServiceConfigs.Get name).map (fun c => withoutNetworks (withoutEnvironment c)) =
        (q.ServiceConfigs.Get name).map (fun c => withoutNetworks (withoutEnvironment c)) := by
    intro name
    have h := congrArg (Option.map withoutNetworks) (hrel name)
    simpa [Option.map_map, Function.comp] using h
  refine ⟨⟨returns_congr p q hrel, returns_congr q p (fun n => (hrel n).symm)⟩, ?_, ?_, ?_,
    translate_eq q, by decide⟩
  · intro o₁ o₂ w₁ w₂ h₁ h₂
    refine ⟨?_, ?_, ?_⟩
    · have h₁' := h₁
      have h₂' := h₂
      rw [translate_eq] at h₁' h₂'
      rw [serviceLoop_returned_warnings p _ _ _ _ o₁ w₁ h₁',
        serviceLoop_returned_warnings q _ _ _ _ o₂ w₂ h₂',
        any_networksCondition_congr p q hrel, hnet, hvol]
    · rw [translate_keys p o₁ w₁ h₁, translate_keys q o₂ w₂ h₂]
      exact Keys_perm withoutEnvironment p.ServiceConfigs q.ServiceConfigs hsame
    · intro name r₁ hr₁
      obtain ⟨r₂, h1, h2, h3, h4, _⟩ :=
        records_congr p q hrel' henv o₁ o₂ w₁ w₂ h₁ h₂ name r₁ hr₁
      exact ⟨r₂, h1, h2, h3, h4⟩
  · intro hp
    have hq : ∀ (name : String) (c : config.ServiceConfig),
        q.ServiceConfigs.Get name = some c → c.Networks ≠ none := by
      intro name b hb
      obtain ⟨a, ha, hba⟩ := Get_transfer withoutEnvironment q.ServiceConfigs p.ServiceConfigs
        (fun n => (hrel n).symm) name b hb
      rw [(networks_congr b a hba).1]
      exact hp name a ha
    refine ⟨?_, (translate_isFatal p hp).2, (translate_isFatal q hq).2⟩
    rw [(translate_isFatal p hp).1, (translate_isFatal q hq).1]
    constructor
    · rintro ⟨name, a, ha, hf⟩
      obtain ⟨b, hb, hab⟩ := Get_transfer withoutEnvironment p.ServiceConfigs q.ServiceConfigs
        hrel name a ha
      exact ⟨name, b, hb, (networks_congr a b hab).2.1 ▸ hf⟩
    · rintro ⟨name, b, hb, hf⟩
      obtain ⟨a, ha, hba⟩ := Get_transfer withoutEnvironment q.ServiceConfigs p.ServiceConfigs
        (fun n => (hrel n).symm) name b hb
      exact ⟨name, a, ha, (networks_congr b a hba).2.1 ▸ hf⟩
  · intro hkeys
    have hlog : (translate p).format = (translate q).format ∧
        (translate p).isPanic = (translate q).isPanic ∧
        (translate p).warnings = (translate q).warnings := by
      rw [translate_eq, translate_eq, hkeys, hnet, hvol]
      exact serviceLoop_log_congr p q hrel _ _ _ _ _
    refine ⟨hlog.1, ?_, hlog.2.1, hlog.2.2⟩
    rw [isFatal_eq_format, isFatal_eq_format, hlog.1]

/-- Witness of C17 amended: the two runs on `envAB` and `envBA`, with the
same order of services and of different orders of the environment map. -/
theorem C17_deterministic_up_to_order_witness :
    ((translate envAB).model.isSome = true ↔ (translate envBA).model.isSome = true) ∧
    (∃ o₁ o₂ w₁ w₂, translate envAB = Outcome.returned o₁ w₁ ∧
      translate envBA = Outcome.returned o₂ w₂ ∧ w₁ = w₂ ∧ o₁.keys.Perm o₂.keys) ∧
    (envAB.ServiceConfigs.Keys = envBA.ServiceConfigs.Keys ∧
      (translate envAB).warnings = (translate envBA).warnings) :=
  have henv : ∀ (name : String) (a b : config.ServiceConfig),
      envAB.ServiceConfigs.Get name = some a → envBA.ServiceConfigs.Get name = some b →
      a.Environment.entries.Perm b.Environment.entries := by
    intro name a b ha hb
    have ha' := (Get_eq_some envAB.ServiceConfigs name a).mp ha
    have hb' := (Get_eq_some envBA.ServiceConfigs name b).mp hb
    simp only [envAB, List.mem_singleton, Prod.mk.injEq] at ha'
    simp only [envBA, List.mem_singleton, Prod.mk.injEq] at hb'
    rw [ha'.2, hb'.2]
    exact List.Perm.swap _ _ _
  have h := C17_deterministic_up_to_order envAB envBA (List.Perm.refl _) henv rfl rfl
  ⟨h.1, ⟨_, _, _, _, rfl, rfl, (h.2.1 _ _ _ _ rfl rfl).1, (h.2.1 _ _ _ _ rfl rfl).2.1⟩,
   rfl, (h.2.2.2.1 rfl).2.2.2⟩

/-- C18, the code when the working directory cannot be resolved: `LoadCompose`
does not call `Fatalf` and returns the empty Kompose object, whatever the
compose file holds; the same file with the directory resolved yields the two
services of `twoServices`. -/
theorem C18_getwd_failure_returns_empty :
    (∀ (parse : String → String → Option project.Project) (file : String),
      LoadCompose none parse file = Outcome.returned { ServiceConfigs := [] } []) ∧
    (LoadCompose none (fun _ _ => some twoServices) "docker-compose.yml").isFatal = false ∧
    ((LoadCompose none (fun _ _ => some twoServices) "docker-compose.yml").model.map
      fun o => o.keys) = some [] ∧
    ((LoadCompose (some "/app") (fun _ _ => some twoServices) "docker-compose.yml").model.map
      fun o => o.keys) = some ["web", "db"] :=
  ⟨fun _ _ => rfl, rfl, rfl, rfl⟩

/-! ## More on the port parser -/

/-- C19: `loadPortsFromCompose` is a list homomorphism on success and keeps
order and count.  On `xs ++ ys` it succeeds if and only if it succeeds on `xs`
and on `ys`, and then its bindings are those of `xs` followed by those of
`ys`; a successful result has as many bindings as there are specs, the
binding at each position being the one of the spec at that position parsed
alone; the empty list yields the empty list and no error; and when `xs ++ ys`
fails, the result is that of `xs` if `xs` fails, and else the error is that
of `ys`. -/
theorem C19_list_homomorphism (xs ys : List String) :
    ((loadPortsFromCompose (xs ++ ys)).2 = "" ↔
      (loadPortsFromCompose xs).2 = "" ∧ (loadPortsFromCompose ys).2 = "") ∧
    ((loadPortsFromCompose (xs ++ ys)).2 = "" →
      (loadPortsFromCompose (xs ++ ys)).1 =
        (loadPortsFromCompose xs).1 ++ (loadPortsFromCompose ys).1) ∧
    ((loadPortsFromCompose xs).2 = "" →
      (loadPortsFromCompose xs).1.length = xs.length ∧
      List.Forall₂ (fun x b => loadPortsFromCompose [x] = ([b], ""))
        xs (loadPortsFromCompose xs).1) ∧
    loadPortsFromCompose [] = ([], "") ∧
    ((loadPortsFromCompose xs).2 ≠ "" →
      loadPortsFromCompose (xs ++ ys) = ([], (loadPortsFromCompose xs).2)) ∧
    ((loadPortsFromCompose xs).2 = "" → (loadPortsFromCompose ys).2 ≠ "" →
      loadPortsFromCompose (xs ++ ys) = ([], (loadPortsFromCompose ys).2)) := by
  have hiff : (loadPortsFromCompose (xs ++ ys)).2 = "" ↔
      (loadPortsFromCompose xs).2 = "" ∧ (loadPortsFromCompose ys).2 = "" := by
    rw [ok_iff_all_ok, ok_iff_all_ok, ok_iff_all_ok]
    simp only [List.mem_append]
    constructor
    · exact fun h => ⟨fun x hx => h x (Or.inl hx), fun x hx => h x (Or.inr hx)⟩
    · rintro ⟨h1, h2⟩ x (hx | hx)
      · exact h1 x hx
      · exact h2 x hx
  have hfail : ∀ zs : List String, (loadPortsFromCompose zs).2 ≠ "" →
      ∃ pre s post, zs = pre ++ s :: post ∧
        (∀ x ∈ pre, (loadPortsFromCompose [x]).2 = "") ∧
        (loadPortsFromCompose [s]).2 ≠ "" ∧
        loadPortsFromCompose zs = ([], (loadPortsFromCompose [s]).2) := by
    intro zs hzs
    have hex : ∃ x ∈ zs, (loadPortsFromCompose [x]).2 ≠ "" := by
      by_contra hall
      push_neg at hall
      exact hzs ((ok_iff_all_ok zs).mpr hall)
    obtain ⟨pre, s, post, rfl, hpre, hs⟩ := exists_first_fail zs hex
    exact ⟨pre, s, post, rfl, hpre, hs, loop_first_fail pre s post [] hpre hs⟩
  refine ⟨hiff, ?_, ?_, rfl, ?_, ?_⟩
  · intro hok
    rw [ok_bindings _ hok, ok_bindings _ (hiff.mp hok).1, ok_bindings _ (hiff.mp hok).2,
      List.flatMap_append]
  · intro hok
    have hall : List.Forall₂ (fun x b => loadPortsFromCompose [x] = ([b], ""))
        xs (loadPortsFromCompose xs).1 := by
      rw [ok_bindings xs hok]
      apply forall₂_flatMap_single
      intro x hx
      have hxok := (ok_iff_all_ok xs).mp hok x hx
      rcases single_cases x with h1 | h1 | ⟨b, h1, _⟩
      · rw [h1] at hxok
        exact absurd hxok (host_msg_ne x)
      · rw [h1] at hxok
        exact absurd hxok (container_msg_ne x)
      · exact ⟨b, by rw [h1], h1⟩
    exact ⟨hall.length_eq.symm, hall⟩
  · intro hxs
    obtain ⟨pre, s, post, rfl, hpre, hs, hrun⟩ := hfail xs hxs
    rw [hrun, List.append_assoc, List.cons_append]
    exact loop_first_fail pre s (post ++ ys) [] hpre hs
  · intro hxs hys
    obtain ⟨pre, s, post, rfl, hpre, hs, hrun⟩ := hfail ys hys
    rw [hrun, ← List.append_assoc]
    apply loop_first_fail (xs ++ pre) s post [] _ hs
    intro x hx
    rcases List.mem_append.mp hx with hx | hx
    · exact (ok_iff_all_ok xs).mp hxs x hx
    · exact hpre x hx

/-- Witness of C19: the lists `"80", "8080:81"` and `"53"`, and the failing
lists `"80", "x"` and `"y:1"`. -/
theorem C19_list_homomorphism_witness :
    ((loadPortsFromCompose (["80", "8080:81"] ++ ["53"])).2 = "" ∧
      (loadPortsFromCompose (["80", "8080:81"] ++ ["53"])).1 =
        (loadPortsFromCompose ["80", "8080:81"]).1 ++ (loadPortsFromCompose ["53"]).1) ∧
    ((loadPortsFromCompose ["80", "x"]).2 ≠ "" ∧
      loadPortsFromCompose (["80", "x"] ++ ["y:1"]) =
        ([], (loadPortsFromCompose ["80", "x"]).2)) ∧
    ((loadPortsFromCompose ["80"]).2 = "" ∧ (loadPortsFromCompose ["y:1"]).2 ≠ "" ∧
      loadPortsFromCompose (["80"] ++ ["y:1"]) = ([], (loadPortsFromCompose ["y:1"]).2)) :=
  ⟨⟨by decide, (C19_list_homomorphism ["80", "8080:81"] ["53"]).2.1 (by decide)⟩,
   ⟨by decide, (C19_list_homomorphism ["80", "x"] ["y:1"]).2.2.2.2.1 (by decide)⟩,
   ⟨by decide, by decide,
    (C19_list_homomorphism ["80"] ["y:1"]).2.2.2.2.2 (by decide) (by decide)⟩⟩

theorem minus_data : ("-" : String).data = ['-'] := rfl

/-- `Atoi` reads the decimal numeral of a negative number back, as long as
the value fits an `int`. -/
theorem Atoi_neg_repr (n : Nat) (hn : n ≤ 2 ^ 63) :
    Atoi ("-" ++ toString n) = some (-(n : Int)) := by
  obtain ⟨d, ds, hds⟩ := List.exists_cons_of_ne_nil (repr_ne_nil n)
  have hval := repr_parse n
  rw [hds] at hval
  unfold Atoi
  simp only [String.data_append, minus_data, List.singleton_append, hds, beq_self_eq_true,
    Bool.true_or, if_true, hval]
  have h1 : -(2 : Int) ^ (intSize - 1) ≤ -(n : Int) := by
    simp only [intSize]
    have : (n : Int) ≤ 2 ^ 63 := by exact_mod_cast hn
    omega
  have h2 : -(n : Int) < (2 : Int) ^ (intSize - 1) := by
    have : (0 : Int) < (2 : Int) ^ (intSize - 1) := by positivity
    omega
  simp [h1, h2]

/-- The decimal numeral of an integer within the range of `int`: `Atoi` reads
it back, it has no colon, and `TrimSpace` leaves it as it is. -/
theorem int_repr_facts (c : Int) (hlo : -(2 : Int) ^ 63 ≤ c) (hhi : c < 2 ^ 63) :
    Atoi (toString c) = some c ∧ ':' ∉ (toString c).data ∧
      TrimSpace (toString c) = toString c := by
  cases c with
  | ofNat n =>
    have hn : n < 2 ^ 63 := by
      have : (n : Int) < 2 ^ 63 := hhi
      exact_mod_cast this
    exact ⟨Atoi_repr n hn, repr_no_colon n, TrimSpace_repr n⟩
  | negSucc n =>
    have hn : n + 1 ≤ 2 ^ 63 := by
      have h := hlo
      rw [Int.negSucc_eq] at h
      have : ((n + 1 : Nat) : Int) ≤ 2 ^ 63 := by
        push_cast
        omega
      exact_mod_cast this
    have hstr : toString (Int.negSucc n) = "-" ++ toString (n + 1) := rfl
    rw [hstr]
    refine ⟨?_, ?_, ?_⟩
    · rw [Atoi_neg_repr (n + 1) hn, Int.negSucc_eq]
      push_cast
      rfl
    · simp only [String.data_append, minus_data, List.singleton_append, List.mem_cons, not_or]
      exact ⟨by decide, repr_no_colon (n + 1)⟩
    · apply TrimSpace_clean
      intro x hx
      simp only [String.data_append, minus_data, List.singleton_append, List.mem_cons] at hx
      rcases hx with rfl | hx
      · rfl
      · obtain ⟨m, hm, rfl⟩ := repr_digits (n + 1) x hx
        exact isSpace_digitChar m hm

/-- A spec text that parses as a container port, with and without the host
port `0` in front: the same binding. -/
theorem zero_host_same (t : String) (v : Int) (hv : Atoi t = some v) (hc : ':' ∉ t.data)
    (ht : TrimSpace t = t) :
    loadPortsFromCompose ["0:" ++ t] =
        ([{ HostPort := 0, ContainerPort := toInt32 v, Protocol := Protocol.TCP }], "") ∧
    loadPortsFromCompose [t] =
        ([{ HostPort := 0, ContainerPort := toInt32 v, Protocol := Protocol.TCP }], "") := by
  constructor
  · have hshape : "0:" ++ t = "0" ++ ":" ++ t := by
      apply String.ext
      simp [String.data_append]
    have hzero : Atoi (TrimSpace "0") = some 0 := by decide
    rw [hshape, single_colon _ (contains_split "0" t), sliceTo_split "0" t (by decide),
      sliceFrom_split "0" t (by decide), hzero, ht, hv]
    rfl
  · rw [single_plain t ((contains_eq_false_iff t).mpr hc), hv]

/-- C20, as stated, fails: the integer 2147483648 parses as a container port,
`Atoi` accepting its numeral, and the specs `"0:2147483648"` and
`"2147483648"` both yield the binding with `ContainerPort = -2147483648`, the
`int32` of that integer and not the integer itself. -/
theorem C20_counterexample :
    Atoi (toString (2147483648 : Int)) = some 2147483648 ∧
    loadPortsFromCompose [toString (2147483648 : Int)] =
      ([{ HostPort := 0, ContainerPort := -2147483648, Protocol := Protocol.TCP }], "") ∧
    loadPortsFromCompose ["0:" ++ toString (2147483648 : Int)] =
      ([{ HostPort := 0, ContainerPort := -2147483648, Protocol := Protocol.TCP }], "") ∧
    (-2147483648 : Int) ≠ 2147483648 := by
  decide

/-- C20, amended: an explicit host port of zero cannot be told from an absent
host port.  For every integer `c` whose decimal numeral `Atoi` accepts, the
specs `"0:" ++ decimal(c)` and `decimal(c)` both parse, to the same single
binding with `HostPort = 0`, protocol TCP and the `int32` of `c` as
`ContainerPort`, which is `c` itself for every `c` in the range of `int32`. -/
theorem C20_zero_host_port (c : Int) (hlo : -(2 : Int) ^ 63 ≤ c) (hhi : c < 2 ^ 63) :
    loadPortsFromCompose ["0:" ++ toString c] = loadPortsFromCompose [toString c] ∧
    loadPortsFromCompose ["0:" ++ toString c] =
        ([{ HostPort := 0, ContainerPort := toInt32 c, Protocol := Protocol.TCP }], "") ∧
    loadPortsFromCompose [toString c] =
        ([{ HostPort := 0, ContainerPort := toInt32 c, Protocol := Protocol.TCP }], "") ∧
    (-(2 : Int) ^ 31 ≤ c → c < 2 ^ 31 →
      loadPortsFromCompose ["0:" ++ toString c] =
          ([{ HostPort := 0, ContainerPort := c, Protocol := Protocol.TCP }], "") ∧
      loadPortsFromCompose [toString c] =
          ([{ HostPort := 0, ContainerPort := c, Protocol := Protocol.TCP }], "")) := by
  obtain ⟨hv, hc, ht⟩ := int_repr_facts c hlo hhi
  obtain ⟨h0, h1⟩ := zero_host_same (toString c) c hv hc ht
  refine ⟨by rw [h0, h1], h0, h1, fun h31 h32 => ?_⟩
  rw [h0, h1, toInt32_of_range c h31 h32]
  exact ⟨rfl, rfl⟩

/-- Witness of C20: the container port 3000, as `"0:3000"` and as `"3000"`. -/
theorem C20_zero_host_port_witness :
    (-(2 : Int) ^ 63 ≤ 3000 ∧ (3000 : Int) < 2 ^ 63) ∧
    loadPortsFromCompose ["0:" ++ toString (3000 : Int)] =
      loadPortsFromCompose [toString (3000 : Int)] ∧
    (loadPortsFromCompose ["0:" ++ toString (3000 : Int)] =
        ([{ HostPort := 0, ContainerPort := 3000, Protocol := Protocol.TCP }], "") ∧
      loadPortsFromCompose [toString (3000 : Int)] =
        ([{ HostPort := 0, ContainerPort := 3000, Protocol := Protocol.TCP }], "")) :=
  ⟨⟨by decide, by decide⟩,
   (C20_zero_host_port 3000 (by decide) (by decide)).1,
   (C20_zero_host_port 3000 (by decide) (by decide)).2.2.2 (by decide) (by decide)⟩

end Kompose
